import Mathlib

/-!
Verification development for the pcre2test harness (lfany/pcre2,
src/pcre2test.c).  The definitions are a shallow embedding of the C
functions named in the doc comments; machine integers are modelled as
`Nat` (with explicit wrap-around only where the C code can actually
overflow), NUL-terminated C buffers are modelled as `List Nat` read with
`List.getD _ _ 0` (reading the terminator or anything past it yields 0,
matching the C scan loops, which stop at the NUL), and fallible
functions return the C return code together with the produced value.
The file is organised as: all definitions first, then the theorems.
-/

set_option maxRecDepth 4000

/-! ## Definitions: the codepoint codec (pcre2test.c:1316-1355, 1538-1554) -/

/-- Modelled from the spec: the tables `utf8_table1`, `utf8_table2`,
`utf8_table3` are referenced by `utf82ord` and `ord2utf8` in pcre2test.c
but their definitions live in a part of the repository that is not under
src/.  Their values are forced by the spec (section 4.1): the codec is
the original RFC 2279 UTF-8, "supporting codepoints up to 0x7fffffff ...
up to 6 bytes long".  `utf8_table1` holds the largest codepoint encodable
in i+1 bytes, `utf8_table2` the lead-byte tag bits, `utf8_table3` the
mask for the payload bits of the lead byte. -/
def utf8_table1 : List Nat := [0x7f, 0x7ff, 0xffff, 0x1fffff, 0x3ffffff, 0x7fffffff]
def utf8_table2 : List Nat := [0, 0xc0, 0xe0, 0xf0, 0xf8, 0xfc]
def utf8_table3 : List Nat := [0xff, 0x1f, 0x0f, 0x07, 0x03, 0x01]

/-- The table-index scan shared by `ord2utf8` (pcre2test.c:1543-1544:
`for (i = 0; i < utf8_table1_size; i++) if (cvalue <= utf8_table1[i]) break;`)
and the final length check of `utf82ord`. -/
def utf8_tbl_idx (d : Nat) : Nat :=
  if d ≤ 0x7f then 0
  else if d ≤ 0x7ff then 1
  else if d ≤ 0xffff then 2
  else if d ≤ 0x1fffff then 3
  else if d ≤ 0x3ffffff then 4
  else if d ≤ 0x7fffffff then 5
  else 6

/-- `ord2utf8` (pcre2test.c:1538-1554): encode one codepoint as RFC 2279
UTF-8, up to 6 bytes; returns none (C: 0 bytes) above 0x7fffffff. -/
def ord2utf8 (cvalue : Nat) : Option (List Nat) :=
  if cvalue > 0x7fffffff then none
  else
    let i := utf8_tbl_idx cvalue
    some ((utf8_table2.getD i 0 ||| (cvalue >>> (6 * i))) ::
      (List.range i).map (fun k => 0x80 ||| ((cvalue >>> (6 * (i - 1 - k))) &&& 0x3f)))

/-- The lead-byte classification of `utf82ord` (pcre2test.c:1325-1337):
-1 for ASCII (value is the byte itself), 0 for a bare continuation
byte, 1..5 for a lead byte announcing that many continuation bytes,
6 for the invalid 0xfe/0xff lead. -/
def utf8_addcount (c : Nat) : Int :=
  if c &&& 0x80 = 0 then -1
  else if c &&& 0x40 = 0 then 0
  else if c &&& 0x20 = 0 then 1
  else if c &&& 0x10 = 0 then 2
  else if c &&& 0x08 = 0 then 3
  else if c &&& 0x04 = 0 then 4
  else if c &&& 0x02 = 0 then 5
  else 6

/-- The continuation-byte loop of `utf82ord` (pcre2test.c:1341-1347)
followed by the overlong check (1351-1353): each following byte must be
0b10xxxxxx (else the negative of its offset is returned) and the
assembled value must really need i+1 bytes (else -(i+1)). -/
def utf82ord_loop (b : List Nat) (i : Nat) : Nat → Nat → Nat → Int × Nat
  | 0, _, d => if utf8_tbl_idx d ≠ i then (-(i + 1 : Int), 0) else ((i + 1 : Int), d)
  | rem + 1, j, d =>
    let cj := b.getD (j + 1) 0
    if cj &&& 0xc0 ≠ 0x80 then (-(j + 1 : Int), 0)
    else utf82ord_loop b i rem (j + 1) (d ||| ((cj &&& 0x3f) <<< (6 * (i - 1 - j))))

/-- `utf82ord` (pcre2test.c:1316-1355): decode one RFC 2279 UTF-8
character; positive return = bytes consumed with the value in the second
component, 0 = bad lead byte, negative = offset of a bad byte or
negated length for an overlong form. -/
def utf82ord (b : List Nat) : Int × Nat :=
  let c := b.getD 0 0
  let i := utf8_addcount c
  if i = -1 then (1, c)
  else if i = 0 ∨ i = 6 then (0, 0)
  else utf82ord_loop b i.toNat i.toNat 0 ((c &&& utf8_table3.getD i.toNat 0) <<< (6 * i.toNat))


/-! ## Definitions: the 16-bit width converter (pcre2test.c:1586-1624) -/

/-- The loop of to16 (pcre2test.c:1605-1620), fuel-indexed so that it is
structurally recursive: every iteration consumes at least one input byte
(`chlen > 0` in the success path), so running it with fuel =
length of the byte string (see `to16`) never exhausts the fuel; the
fuel-exhausted branch is unreachable then.  Decodes the always-UTF-8
input one codepoint at a time via `utf82ord` and appends 16-bit code
units; error codes as in the C function: -1 malformed UTF-8, -2 value
above 0x10ffff, -3 value above 0xffff when not converting to UTF-16. -/
def to16_go (utf : Bool) : Nat → List Nat → Except Int (List Nat)
  | _, [] => .ok []
  | 0, _ :: _ => .error (-1)
  | fuel + 1, b :: rest =>
    if (utf82ord (b :: rest)).1 ≤ 0 then .error (-1)
    else if (utf82ord (b :: rest)).2 > 0x10ffff then .error (-2)
    else if (utf82ord (b :: rest)).2 < 0x10000 then
      (to16_go utf fuel ((b :: rest).drop (utf82ord (b :: rest)).1.toNat)).map
        (fun l => (utf82ord (b :: rest)).2 :: l)
    else if !utf then .error (-3)
    else
      (to16_go utf fuel ((b :: rest).drop (utf82ord (b :: rest)).1.toNat)).map
        (fun l => (0xD800 ||| (((utf82ord (b :: rest)).2 - 0x10000) >>> 10)) ::
          (0xDC00 ||| (((utf82ord (b :: rest)).2 - 0x10000) &&& 0x3ff)) :: l)

/-- to16 (pcre2test.c:1586-1624): the conversion loop run over the whole
byte string (the reallocation of the scratch buffer at the top of the C
function cannot fail except by aborting the process and is not part of
the conversion semantics). -/
def to16 (bytes : List Nat) (utf : Bool) : Except Int (List Nat) :=
  to16_go utf bytes.length bytes

/-- Concatenation of the encodings of a list of codepoints: the byte
strings fed to the width converters are produced this way. -/
def encodeAll : List Nat → Option (List Nat)
  | [] => some []
  | c :: cs =>
    match ord2utf8 c, encodeAll cs with
    | some bs, some bss => some (bs ++ bss)
    | _, _ => none

/-- How `to16` lays out one codepoint in UTF-16 mode. -/
def utf16units (c : Nat) : List Nat :=
  if c < 0x10000 then [c]
  else [0xD800 ||| ((c - 0x10000) >>> 10), 0xDC00 ||| ((c - 0x10000) &&& 0x3ff)]


/-! ## Definitions: the data-line encoder (process_data, pcre2test.c:3155-3481)

The scanning loop of `process_data` at 8-bit width (`test_mode ==
PCRE8_MODE`, `code_unit_size == 1`).  The destination buffer `dbuffer`
is modelled together with a tiny allocator so that the C code's
`realloc` behaviour is visible: every (re)allocation gets a fresh
allocation id, and a saved raw pointer is a pair (allocation id, byte
offset).  `realloc` both grows the capacity and moves the block (which a
conforming C `realloc` may always do); the contents are preserved.
Reading through a saved pointer whose allocation id is no longer
current is a use-after-free: the model records this in `staleRead` and
yields byte 0 for the indeterminate contents of freed memory.  The
model also records in `pastCap` whether any byte was ever stored at an
offset at or beyond the current capacity.  `rbuf`/`rvals`/`rwarns` hold
the written bytes, the ghost trace of committed character values, and
the emitted warnings, each most-recent-first (reversed at the end). -/

/-- C locale isspace on a byte. -/
def isspace_b (c : Nat) : Bool := c = 32 || (9 ≤ c && c ≤ 13)

/-- C locale isdigit on a byte. -/
def isdigit_b (c : Nat) : Bool := 48 ≤ c && c ≤ 57

/-- C locale isxdigit on a byte. -/
def isxdigit_b (c : Nat) : Bool := isdigit_b c || (97 ≤ c && c ≤ 102) || (65 ≤ c && c ≤ 70)

/-- `tolower(*p) - ((isdigit(*p))? '0' : 'a' - 10)`: hex digit value. -/
def hexval (c : Nat) : Nat :=
  if isdigit_b c then c - 48 else (if 65 ≤ c && c ≤ 90 then c + 32 else c) - 87

/-- Warnings `process_data` prints without abandoning the data line. -/
inductive EncWarn where
  | tooManyHex       /- "Too many hex digits in \x{...} item; using only the first eight." -/
  | tooManyOct       /- "Too many octal digits in \o{...} item; using only the first twelve." -/
  | octMissingBrace  /- "Missing } after \o{ (assumed)" -/
  | over255          /- "Character is greater than 255 and UTF-8 mode is not enabled." -/
deriving DecidableEq

/-- The conditions on which `process_data` abandons the data line
(prints a diagnostic and returns PR_OK, so the run continues with the
next test item).  `outOfFuel` is a modelling artifact: the fuel given by
`processData` (one unit per input byte, each loop iteration consumes at
least one) never runs out. -/
inductive EncErr where
  | expectedLBrace        /- "Expected '{' after \[....]" -/
  | expectedRBrace        /- "Expected '}' after \[...]{..." -/
  | zeroRepeat            /- "Zero repeat not allowed" -/
  | nestedDup             /- "Nested duplication is not supported" -/
  | unrecognizedEscape (c : Nat)
  | invalidUtf8Line       /- "invalid UTF-8 string cannot be used as input in UTF mode" -/
  | charTooBig (c : Nat)  /- "Character is greater than 0x7fffffff ..." -/
  | outOfFuel
deriving DecidableEq

/-- State of the scan: capacity and allocation id of `dbuffer`, the
bytes written so far (reversed), the saved `start_dup` pointer, the
running worst-case length `needlen`, and the ghost fields. -/
structure EncSt where
  cap : Nat
  allocId : Nat
  rbuf : List Nat
  qoff : Nat
  startDup : Option (Nat × Nat)
  needlen : Nat
  rvals : List Nat
  rwarns : List EncWarn
  staleRead : Bool
  pastCap : Bool

/-- Result of a completed data-line scan. -/
structure EncOut where
  buf : List Nat
  vals : List Nat
  warns : List EncWarn
  cap : Nat
  staleRead : Bool
  pastCap : Bool
deriving DecidableEq

/-- Store one byte at the write cursor (`*q8++ = c` stores c mod 256). -/
def encWrite (st : EncSt) (b : Nat) : EncSt :=
  { st with rbuf := (b % 256) :: st.rbuf, qoff := st.qoff + 1,
            pastCap := st.pastCap || decide (st.cap ≤ st.qoff) }

/-- Append a list of bytes (forward order) at the cursor: each byte is
stored mod 256 as by `encWrite`, and the write is past capacity exactly
when the last byte's offset `qoff + |bs| - 1` reaches the capacity (the
per-byte checks are monotone in the offset). -/
def encWriteAll (st : EncSt) (bs : List Nat) : EncSt :=
  { st with rbuf := List.reverseAux (bs.map (fun b => b % 256)) st.rbuf,
            qoff := st.qoff + bs.length,
            pastCap := st.pastCap ||
              (decide (1 ≤ bs.length) && decide (st.cap ≤ st.qoff + (bs.length - 1))) }

/-- The width-specific commit of one decoded character value c
(pcre2test.c:3410-3434, 8-bit mode): in UTF mode encode via `ord2utf8`
(values above 0x7fffffff abandon the line), otherwise warn if the value
exceeds 255 and store the low byte.  The committed value is also pushed
on the ghost trace `rvals`. -/
def commit8 (utf : Bool) (st : EncSt) (c : Nat) : Except EncErr EncSt :=
  let st := { st with rvals := c :: st.rvals }
  if utf then
    match ord2utf8 c with
    | none => .error (.charTooBig c)
    | some bs => .ok (encWriteAll st bs)
  else
    if 0xff < c then
      .ok (encWrite { st with rwarns := .over255 :: st.rwarns } c)
    else
      .ok (encWrite st c)

/-- The doubling loop `while (needlen >= dbuffer_size) { dbuffer_size *= 2;
dbuffer = realloc(...); }` (pcre2test.c:3271-3281 and, with the extra
`dbuffer == NULL` disjunct on entry, 3226-3235).  Every `realloc` gets a
fresh allocation id.  The fuel is an upper bound on the number of
doublings; with fuel ≥ needlen and cap ≥ 1 it cannot run out. -/
def growWhile (needlen : Nat) : Nat → Nat → Nat → Nat × Nat
  | 0, cap, aid => (cap, aid)
  | f + 1, cap, aid =>
    if cap ≤ needlen then growWhile needlen f (cap * 2) (aid + 1) else (cap, aid)

/-- The digit loop of the repeat count parser
`while (isdigit(*p)) i = i * 10 + *p++ - '0'` (pcre2test.c:3257).
Returns the value and the position after the digits. -/
def scanRepeatDigits (line : List Nat) : Nat → Nat → Nat → Nat × Nat
  | 0, pos, i => (i, pos)
  | f + 1, pos, i =>
    let d := line.getD pos 0
    if isdigit_b d then scanRepeatDigits line f (pos + 1) (i * 10 + d - 48)
    else (i, pos)

/-- The hex-digit loop of `\x{...}` (pcre2test.c:3349-3355):
`if (++i == 9)` prints the too-many-digits warning and skips that digit,
`else` accumulates (`c` is a uint32, hence the mod 2^32).  Returns the
value, the digit count, the position after the digits, and whether the
warning fired. -/
def scanHexBrace (line : List Nat) : Nat → Nat → Nat → Nat → Nat × Nat × Nat × Bool
  | 0, pos, i, c => (c, i, pos, false)
  | f + 1, pos, i, c =>
    let d := line.getD pos 0
    if isxdigit_b d then
      if i + 1 = 9 then
        let r := scanHexBrace line f (pos + 1) (i + 1) c
        (r.1, r.2.1, r.2.2.1, true)
      else
        scanHexBrace line f (pos + 1) (i + 1) ((c * 16 + hexval d) % 4294967296)
    else (c, i, pos, false)

/-- The octal-digit loop of `\o{...}` (pcre2test.c:3326-3332), same
shape with limit 12 and octal digits. -/
def scanOctBrace (line : List Nat) : Nat → Nat → Nat → Nat → Nat × Nat × Nat × Bool
  | 0, pos, i, c => (c, i, pos, false)
  | f + 1, pos, i, c =>
    let d := line.getD pos 0
    if isdigit_b d && !(d = 56) && !(d = 57) then
      if i + 1 = 12 then
        let r := scanOctBrace line f (pos + 1) (i + 1) c
        (r.1, r.2.1, r.2.2.1, true)
      else
        scanOctBrace line f (pos + 1) (i + 1) ((c * 8 + (d - 48)) % 4294967296)
    else (c, i, pos, false)

/-- The UTF-8 validity pre-scan of the data line (pcre2test.c:3200-3212):
`for (q = p; n > 0 && *q; q += n) n = utf82ord(q, &cc); if (n <= 0) fail`.
Structured over the remaining byte list; one fuel unit per character. -/
def utf8Check_go : Nat → List Nat → Bool
  | _, [] => true
  | 0, _ :: _ => false
  | f + 1, b :: rest =>
    if b = 0 then true
    else if (utf82ord (b :: rest)).1 ≤ 0 then false
    else utf8Check_go f ((b :: rest).drop (utf82ord (b :: rest)).1.toNat)

/-- The whole validity pre-scan. -/
def utf8CheckLine (line : List Nat) : Bool := utf8Check_go line.length line

/-- One `memcpy(CAST8VAR(q), start_dup, duplen)` of the duplication
replay (pcre2test.c:3283-3287): if the saved pointer's allocation is
still the current one the source bytes are read from the live buffer
(the source range never overlaps the write cursor, which is past it);
otherwise the read goes into freed memory — the model yields zero bytes
and raises `staleRead`. -/
def dupCopyOnce (st : EncSt) (aid off duplen : Nat) : EncSt :=
  if st.allocId = aid then
    encWriteAll st ((st.rbuf.reverse.drop off).take duplen)
  else
    encWriteAll { st with staleRead := true } (List.replicate duplen 0)

/-- The replay loop `while (i-- > 0) { memcpy(...); SETPLUS(q, ...); }`. -/
def dupCopyLoop (aid off duplen : Nat) : Nat → EncSt → EncSt
  | 0, st => st
  | i + 1, st => dupCopyLoop aid off duplen i (dupCopyOnce st aid off duplen)

/-- Modelled from the spec: `HASUTF8EXTRALEN` / `GETUTF8INC` come from
the engine's internal headers, which are not under src/.  Per spec
section 4.1 they read one multi-byte character: a lead byte is ≥ 0xc0,
and the decode is the section 4.1 (RFC 2279) decode, here `utf82ord`.
`process_data` uses them only on lines that already passed the validity
pre-scan, so the malformed case (which this model maps to "consume one
byte unchanged") is unreachable. -/
def getUtf8Inc (line : List Nat) (pos : Nat) (c : Nat) : Nat × Nat :=
  if (utf82ord (line.drop pos)).1 ≤ 0 then (c, pos + 1)
  else ((utf82ord (line.drop pos)).2, pos + (utf82ord (line.drop pos)).1.toNat)

/-- Close of a duplication block: the `]` handler
(pcre2test.c:3248-3291).  `pos` points just after the `]`.  Parses
`{N}`, rejects N = 0, recomputes `needlen`, grows (and relocates) the
buffer while `needlen >= dbuffer_size` — re-basing the write cursor but
NOT the saved `start_dup` pointer — and then replays the duplicated
byte range N-1 times.  For N = 1 the C expression `duplen * (i - 1)`
underflows int -1 and, converted to size_t, subtracts duplen from
needlen; `needlen` can never be smaller than `duplen` at 8-bit width, so
this is modelled by saturating subtraction. -/
def closeDup (line : List Nat) (fuel pos : Nat) (st : EncSt) (aid off : Nat) :
    Except EncErr (Nat × EncSt) :=
  if line.getD pos 0 ≠ 123 then .error .expectedLBrace
  else
    let r := scanRepeatDigits line fuel (pos + 1) 0
    if line.getD r.2 0 ≠ 125 then .error .expectedRBrace
    else if r.1 = 0 then .error .zeroRepeat
    else
      let i := r.1 - 1
      let duplen := st.qoff - off
      let needlen2 := if i = 0 then st.needlen - duplen
        else st.needlen + duplen * (i - 1)
      let g := growWhile needlen2 (needlen2 + 1) st.cap st.allocId
      let st2 := { st with cap := g.1, allocId := g.2, needlen := needlen2 }
      let st3 := dupCopyLoop aid off duplen i st2
      .ok (r.2 + 1, { st3 with startDup := none })

/-- The body of the scan loop `while ((c = *p++) != 0)`
(pcre2test.c:3241-3476) at 8-bit width, one fuel unit per iteration
(every iteration consumes at least one input byte).  `pos` is the
offset of `p` in the line; reading the NUL terminator or beyond yields
0 and ends the scan (ENDSTRING, pcre2test.c:3478). -/
def pd_go (line : List Nat) (utf : Bool) : Nat → Nat → EncSt → Except EncErr EncSt
  | 0, _, _ => .error .outOfFuel
  | f + 1, pos, st =>
    let c := line.getD pos 0
    if c = 0 then .ok st
    else if c = 93 && !(st.startDup = none) then
      let sd := st.startDup.getD (0, 0)
      match closeDup line (f + 1) (pos + 1) st sd.1 sd.2 with
      | .error e => .error e
      | .ok (pos2, st2) => pd_go line utf f pos2 st2
    else if c ≠ 92 then
      if utf && 0xc0 ≤ c then
        let r := getUtf8Inc line pos c
        match commit8 utf st r.1 with
        | .error e => .error e
        | .ok st2 => pd_go line utf f r.2 st2
      else
        match commit8 utf st c with
        | .error e => .error e
        | .ok st2 => pd_go line utf f (pos + 1) st2
    else
      let e := line.getD (pos + 1) 0
      if e = 92 then
        match commit8 utf st 92 with
        | .error er => .error er
        | .ok st2 => pd_go line utf f (pos + 2) st2
      else if e = 97 || e = 98 || e = 101 || e = 102 || e = 110 || e = 114 ||
          e = 116 || e = 118 then
        let v : Nat := if e = 97 then 7 else if e = 98 then 8 else if e = 101 then 27
          else if e = 102 then 12 else if e = 110 then 10 else if e = 114 then 13
          else if e = 116 then 9 else 11
        match commit8 utf st v with
        | .error er => .error er
        | .ok st2 => pd_go line utf f (pos + 2) st2
      else if 48 ≤ e && e ≤ 55 then
        let d1 := line.getD (pos + 2) 0
        if isdigit_b d1 && !(d1 = 56) && !(d1 = 57) then
          let d2 := line.getD (pos + 3) 0
          if isdigit_b d2 && !(d2 = 56) && !(d2 = 57) then
            match commit8 utf st (((e - 48) * 8 + (d1 - 48)) * 8 + (d2 - 48)) with
            | .error er => .error er
            | .ok st2 => pd_go line utf f (pos + 4) st2
          else
            match commit8 utf st ((e - 48) * 8 + (d1 - 48)) with
            | .error er => .error er
            | .ok st2 => pd_go line utf f (pos + 3) st2
        else
          match commit8 utf st (e - 48) with
          | .error er => .error er
          | .ok st2 => pd_go line utf f (pos + 2) st2
      else if e = 111 then
        if line.getD (pos + 2) 0 = 123 then
          let r := scanOctBrace line (f + 1) (pos + 3) 0 0
          let st2 := if r.2.2.2 then { st with rwarns := .tooManyOct :: st.rwarns } else st
          if line.getD r.2.2.1 0 = 125 then
            match commit8 utf st2 r.1 with
            | .error er => .error er
            | .ok st3 => pd_go line utf f (r.2.2.1 + 1) st3
          else
            match commit8 utf { st2 with rwarns := .octMissingBrace :: st2.rwarns } r.1 with
            | .error er => .error er
            | .ok st3 => pd_go line utf f (pos + 2) st3
        else
          match commit8 utf st 111 with
          | .error er => .error er
          | .ok st2 => pd_go line utf f (pos + 2) st2
      else if e = 120 then
        if line.getD (pos + 2) 0 = 123 then
          let r := scanHexBrace line (f + 1) (pos + 3) 0 0
          let st2 := if r.2.2.2 then { st with rwarns := .tooManyHex :: st.rwarns } else st
          if line.getD r.2.2.1 0 = 125 then
            match commit8 utf st2 r.1 with
            | .error er => .error er
            | .ok st3 => pd_go line utf f (r.2.2.1 + 1) st3
          else
            -- not the brace form after all: fall through to the \xHH code
            -- with p still at the brace; the brace is not a hex digit so the
            -- non-brace loop consumes nothing (whatever the digit count i
            -- retained from the scan above) and the committed value is 0
            if utf then
              match commit8 false st2 0 with
              | .error er => .error er
              | .ok st3 => pd_go line utf f (pos + 2) st3
            else
              match commit8 utf st2 0 with
              | .error er => .error er
              | .ok st3 => pd_go line utf f (pos + 2) st3
        else
          let h1 := line.getD (pos + 2) 0
          if isxdigit_b h1 then
            let h2 := line.getD (pos + 3) 0
            if isxdigit_b h2 then
              let v := (hexval h1 * 16 + hexval h2) % 4294967296
              if utf then
                match commit8 false st v with
                | .error er => .error er
                | .ok st2 => pd_go line utf f (pos + 4) st2
              else
                match commit8 utf st v with
                | .error er => .error er
                | .ok st2 => pd_go line utf f (pos + 4) st2
            else
              if utf then
                match commit8 false st (hexval h1) with
                | .error er => .error er
                | .ok st2 => pd_go line utf f (pos + 3) st2
              else
                match commit8 utf st (hexval h1) with
                | .error er => .error er
                | .ok st2 => pd_go line utf f (pos + 3) st2
          else
            if utf then
              match commit8 false st 0 with
              | .error er => .error er
              | .ok st2 => pd_go line utf f (pos + 2) st2
            else
              match commit8 utf st 0 with
              | .error er => .error er
              | .ok st2 => pd_go line utf f (pos + 2) st2
      else if e = 0 then
        pd_go line utf f (pos + 1) st
      else if e = 61 then
        .ok st
      else if e = 91 then
        if st.startDup ≠ none then .error .nestedDup
        else pd_go line utf f (pos + 2)
          { st with startDup := some (st.allocId, st.qoff) }
      else
        .error (.unrecognizedEscape e)

/-- process_data (pcre2test.c:3155-3481), the data-line encoding part,
at 8-bit width, on the first data line of a run (`dbuffer == NULL`,
`dbuffer_size == 1 << 14`): after the UTF validity pre-scan, allocate
the buffer (the entry loop always doubles at least once because
`dbuffer` is NULL and then keeps doubling while `needlen >=
dbuffer_size`), then scan the line.  The input `line` is the data line
with trailing whitespace already trimmed and leading whitespace already
skipped (pcre2test.c:3191-3195). -/
def processData (line : List Nat) (utf : Bool) : Except EncErr EncOut :=
  if utf && !utf8CheckLine line then .error .invalidUtf8Line
  else
    let needlen := line.length
    let g := growWhile needlen (needlen + 1) (16384 * 2) 1
    let st0 : EncSt :=
      { cap := g.1, allocId := g.2, rbuf := [], qoff := 0, startDup := none,
        needlen := needlen, rvals := [], rwarns := [], staleRead := false,
        pastCap := false }
    match pd_go line utf (line.length + 1) 0 st0 with
    | .error e => .error e
    | .ok st =>
      .ok { buf := st.rbuf.reverse, vals := st.rvals.reverse,
            warns := st.rwarns.reverse, cap := st.cap,
            staleRead := st.staleRead, pastCap := st.pastCap }


/-! ## Definitions: the modifier grammar engine
(scan_modifiers, check_modifier, decode_modifiers; pcre2test.c:1855-2206) -/

/-- ASCII bytes of a (pure-ASCII) name, for the modifier tables. -/
def s2b (s : String) : List Nat := s.toList.map Char.toNat

/-- Applicability of a modifier (the `which` field, pcre2test.c:310-314). -/
inductive ModWhich where
  | CTC | CTM | PAT | DAT | PD
deriving DecidableEq

/-- Value kind of a modifier (the `type` field, pcre2test.c:315-322). -/
inductive ModType where
  | CTL | BSR | IN2 | INT | NL | NN | OPT | STR
deriving DecidableEq

/-- The struct field a modifier writes to.  The C table stores a byte
offset into patctl/datctl or into a context structure; `options` and
`control` sit at the same offsets in patctl and in datctl, which is what
lets one MOD_PD entry serve both records.  Here the offset is named
symbolically and the record is chosen by `check_modifier` exactly as in
the C code. -/
inductive FieldSel where
  | options | control
  | jit | stackguard | tablesId | locale | save
  | cfail | copyNumbers | getNumbers | jitstack | oveccount | offset
  | copyNames | getNames
  | bsr | newline | parensNest
  | matchLimit | recursionLimit
deriving DecidableEq

/-- One row of modlist (pcre2test.c:403-409). -/
structure ModStruct where
  name : List Nat
  which : ModWhich
  mtype : ModType
  value : Nat
  field : FieldSel

/-- Control bits (pcre2test.c:327-345). -/
def CTL_AFTERTEXT : Nat := 0x00000001
def CTL_ALLAFTERTEXT : Nat := 0x00000002
def CTL_ALLCAPTURES : Nat := 0x00000004
def CTL_ALTGLOBAL : Nat := 0x00000008
def CTL_BYTECODE : Nat := 0x00000010
def CTL_CALLOUT_CAPTURE : Nat := 0x00000020
def CTL_CALLOUT_NONE : Nat := 0x00000040
def CTL_DFA : Nat := 0x00000080
def CTL_FLIPBYTES : Nat := 0x00000100
def CTL_FULLBYTECODE : Nat := 0x00000200
def CTL_GETALL : Nat := 0x00000400
def CTL_GLOBAL : Nat := 0x00000800
def CTL_INFO : Nat := 0x00001000
def CTL_JITVERIFY : Nat := 0x00002000
def CTL_LIMITS : Nat := 0x00004000
def CTL_MARK : Nat := 0x00008000
def CTL_MEMORY : Nat := 0x00010000
def CTL_PERLCOMPAT : Nat := 0x00020000
def CTL_POSIX : Nat := 0x00040000
def CTL_DEBUG : Nat := CTL_FULLBYTECODE ||| CTL_INFO

/-- Modelled from the spec: the PCRE2_* option bit values come from the
engine's public header, which is not under src/; the standard pcre2.h
values are used.  Only their distinctness matters to the grammar engine,
which treats them as opaque bit masks. -/
def PCRE2_ALLOW_EMPTY_CLASS : Nat := 0x00000001
def PCRE2_ALT_BSUX : Nat := 0x00000002
def PCRE2_AUTO_CALLOUT : Nat := 0x00000004
def PCRE2_CASELESS : Nat := 0x00000008
def PCRE2_DOLLAR_ENDONLY : Nat := 0x00000010
def PCRE2_DOTALL : Nat := 0x00000020
def PCRE2_DUPNAMES : Nat := 0x00000040
def PCRE2_EXTENDED : Nat := 0x00000080
def PCRE2_FIRSTLINE : Nat := 0x00000100
def PCRE2_MATCH_UNSET_BACKREF : Nat := 0x00000200
def PCRE2_MULTILINE : Nat := 0x00000400
def PCRE2_NEVER_UCP : Nat := 0x00000800
def PCRE2_NEVER_UTF : Nat := 0x00001000
def PCRE2_NO_AUTO_CAPTURE : Nat := 0x00002000
def PCRE2_NO_AUTO_POSSESS : Nat := 0x00004000
def PCRE2_NO_START_OPTIMIZE : Nat := 0x00010000
def PCRE2_UCP : Nat := 0x00020000
def PCRE2_UNGREEDY : Nat := 0x00040000
def PCRE2_UTF : Nat := 0x00080000
def PCRE2_NO_UTF_CHECK : Nat := 0x40000000
def PCRE2_ANCHORED : Nat := 0x80000000
def PCRE2_NOTBOL : Nat := 0x00000001
def PCRE2_NOTEOL : Nat := 0x00000002
def PCRE2_NOTEMPTY : Nat := 0x00000004
def PCRE2_NOTEMPTY_ATSTART : Nat := 0x00000008
def PCRE2_PARTIAL_SOFT : Nat := 0x00000010
def PCRE2_PARTIAL_HARD : Nat := 0x00000020
def PCRE2_DFA_RESTART : Nat := 0x00000040
def PCRE2_DFA_SHORTEST : Nat := 0x00000080
def PCRE2_BSR_UNICODE : Nat := 1
def PCRE2_BSR_ANYCRLF : Nat := 2

/-- modlist (pcre2test.c:411-477), in the source's collating order. -/
def modlist : List ModStruct := [
  ⟨s2b "aftertext",           .PD,  .CTL, CTL_AFTERTEXT,             .control⟩,
  ⟨s2b "allaftertext",        .PD,  .CTL, CTL_ALLAFTERTEXT,          .control⟩,
  ⟨s2b "allcaptures",         .PD,  .CTL, CTL_ALLCAPTURES,           .control⟩,
  ⟨s2b "allow_empty_class",   .PAT, .OPT, PCRE2_ALLOW_EMPTY_CLASS,   .options⟩,
  ⟨s2b "alt_bsux",            .PAT, .OPT, PCRE2_ALT_BSUX,            .options⟩,
  ⟨s2b "altglobal",           .PD,  .CTL, CTL_ALTGLOBAL,             .control⟩,
  ⟨s2b "anchored",            .PD,  .OPT, PCRE2_ANCHORED,            .options⟩,
  ⟨s2b "auto_callout",        .PAT, .OPT, PCRE2_AUTO_CALLOUT,        .options⟩,
  ⟨s2b "bsr",                 .CTC, .BSR, 0,                         .bsr⟩,
  ⟨s2b "bytecode",            .PAT, .CTL, CTL_BYTECODE,              .control⟩,
  ⟨s2b "callout_capture",     .DAT, .CTL, CTL_CALLOUT_CAPTURE,       .control⟩,
  ⟨s2b "callout_fail",        .DAT, .IN2, 0,                         .cfail⟩,
  ⟨s2b "callout_none",        .DAT, .CTL, CTL_CALLOUT_NONE,          .control⟩,
  ⟨s2b "caseless",            .PAT, .OPT, PCRE2_CASELESS,            .options⟩,
  ⟨s2b "copy",                .DAT, .NN,  0,                         .copyNames⟩,
  ⟨s2b "debug",               .PAT, .CTL, CTL_DEBUG,                 .control⟩,
  ⟨s2b "dfa",                 .DAT, .CTL, CTL_DFA,                   .control⟩,
  ⟨s2b "dfa_restart",         .DAT, .OPT, PCRE2_DFA_RESTART,         .options⟩,
  ⟨s2b "dfa_shortest",        .DAT, .OPT, PCRE2_DFA_SHORTEST,        .options⟩,
  ⟨s2b "dollar_endonly",      .PAT, .OPT, PCRE2_DOLLAR_ENDONLY,      .options⟩,
  ⟨s2b "dotall",              .PAT, .OPT, PCRE2_DOTALL,              .options⟩,
  ⟨s2b "dupnames",            .PAT, .OPT, PCRE2_DUPNAMES,            .options⟩,
  ⟨s2b "extended",            .PAT, .OPT, PCRE2_EXTENDED,            .options⟩,
  ⟨s2b "firstline",           .PAT, .OPT, PCRE2_FIRSTLINE,           .options⟩,
  ⟨s2b "flipbytes",           .PAT, .CTL, CTL_FLIPBYTES,             .control⟩,
  ⟨s2b "fullbytecode",        .PAT, .CTL, CTL_FULLBYTECODE,          .control⟩,
  ⟨s2b "get",                 .DAT, .NN,  0,                         .getNames⟩,
  ⟨s2b "getall",              .DAT, .CTL, CTL_GETALL,                .control⟩,
  ⟨s2b "global",              .PD,  .CTL, CTL_GLOBAL,                .control⟩,
  ⟨s2b "info",                .PAT, .CTL, CTL_INFO,                  .control⟩,
  ⟨s2b "jit",                 .PAT, .INT, 1,                         .jit⟩,
  ⟨s2b "jitstack",            .DAT, .INT, 0,                         .jitstack⟩,
  ⟨s2b "jitverify",           .PD,  .CTL, CTL_JITVERIFY,             .control⟩,
  ⟨s2b "limits",              .DAT, .CTL, CTL_LIMITS,                .control⟩,
  ⟨s2b "locale",              .PAT, .STR, 0,                         .locale⟩,
  ⟨s2b "mark",                .PD,  .CTL, CTL_MARK,                  .control⟩,
  ⟨s2b "match_limit",         .CTM, .INT, 0,                         .matchLimit⟩,
  ⟨s2b "match_unset_backref", .PAT, .OPT, PCRE2_MATCH_UNSET_BACKREF, .options⟩,
  ⟨s2b "memory",              .PD,  .CTL, CTL_MEMORY,                .control⟩,
  ⟨s2b "multiline",           .PAT, .OPT, PCRE2_MULTILINE,           .options⟩,
  ⟨s2b "never_ucp",           .PAT, .OPT, PCRE2_NEVER_UCP,           .options⟩,
  ⟨s2b "never_utf",           .PAT, .OPT, PCRE2_NEVER_UTF,           .options⟩,
  ⟨s2b "newline",             .CTC, .NL,  0,                         .newline⟩,
  ⟨s2b "no_auto_capture",     .PAT, .OPT, PCRE2_NO_AUTO_CAPTURE,     .options⟩,
  ⟨s2b "no_auto_possess",     .PAT, .OPT, PCRE2_NO_AUTO_POSSESS,     .options⟩,
  ⟨s2b "no_start_optimize",   .PD,  .OPT, PCRE2_NO_START_OPTIMIZE,   .options⟩,
  ⟨s2b "no_utf_check",        .PD,  .OPT, PCRE2_NO_UTF_CHECK,        .options⟩,
  ⟨s2b "notbol",              .DAT, .OPT, PCRE2_NOTBOL,              .options⟩,
  ⟨s2b "notempty",            .DAT, .OPT, PCRE2_NOTEMPTY,            .options⟩,
  ⟨s2b "notempty_atstart",    .DAT, .OPT, PCRE2_NOTEMPTY_ATSTART,    .options⟩,
  ⟨s2b "noteol",              .DAT, .OPT, PCRE2_NOTEOL,              .options⟩,
  ⟨s2b "offset",              .DAT, .INT, 0,                         .offset⟩,
  ⟨s2b "ovector",             .DAT, .INT, 0,                         .oveccount⟩,
  ⟨s2b "parens_nest_limit",   .CTC, .INT, 0,                         .parensNest⟩,
  ⟨s2b "partial_hard",        .DAT, .OPT, PCRE2_PARTIAL_HARD,        .options⟩,
  ⟨s2b "partial_soft",        .DAT, .OPT, PCRE2_PARTIAL_SOFT,        .options⟩,
  ⟨s2b "perlcompat",          .PAT, .CTL, CTL_PERLCOMPAT,            .control⟩,
  ⟨s2b "posix",               .PAT, .CTL, CTL_POSIX,                 .control⟩,
  ⟨s2b "recursion_limit",     .CTM, .INT, 0,                         .recursionLimit⟩,
  ⟨s2b "save",                .PAT, .STR, 0,                         .save⟩,
  ⟨s2b "stackguard",          .PAT, .INT, 0,                         .stackguard⟩,
  ⟨s2b "tables",              .PAT, .INT, 0,                         .tablesId⟩,
  ⟨s2b "ucp",                 .PAT, .OPT, PCRE2_UCP,                 .options⟩,
  ⟨s2b "ungreedy",            .PAT, .OPT, PCRE2_UNGREEDY,            .options⟩,
  ⟨s2b "utf",                 .PAT, .OPT, PCRE2_UTF,                 .options⟩]

/-- c1modlist (pcre2test.c:507-520): single- and doubled-character
abbreviations.  The lazily-filled `index` cache is pure memoization of
`scan_modifiers fullname` and is not modelled. -/
def c1modlist : List (List Nat × Nat) := [
  (s2b "bytecode",     66),
  (s2b "fullbytecode", 66 * 256 + 66),
  (s2b "debug",        68),
  (s2b "info",         73),
  (s2b "partial_soft", 80),
  (s2b "partial_hard", 80 * 256 + 80),
  (s2b "global",       103),
  (s2b "altglobal",    103 * 256 + 103),
  (s2b "caseless",     105),
  (s2b "multiline",    109),
  (s2b "dotall",       115),
  (s2b "extended",     120)]

/-- strncmp on byte lists (n bytes; a missing byte reads as NUL, which
compares below every name byte, as for the NUL-terminated C strings). -/
def strncmp_b : List Nat → List Nat → Nat → Int
  | _, _, 0 => 0
  | a, b, n + 1 =>
    let x := a.getD 0 0
    let y := b.getD 0 0
    if x < y then -1
    else if y < x then 1
    else if x = 0 then 0
    else strncmp_b (a.drop 1) (b.drop 1) n

/-- scan_modifiers (pcre2test.c:1861-1879): binary chop over modlist.
`p` is the name bytes (length `len`).  Fuel bounds the halving steps. -/
def scan_modifiers_go (p : List Nat) (len : Nat) : Nat → Nat → Nat → Int
  | 0, _, _ => -1
  | f + 1, bot, top =>
    if top ≤ bot then -1
    else
      let mid := (bot + top) / 2
      let m := (modlist.getD mid ⟨[], .PAT, .CTL, 0, .control⟩).name
      let mlen := m.length
      let c := strncmp_b p m (if len < mlen then len else mlen)
      if c = 0 && len = mlen then (mid : Int)
      else
        let c2 : Int := if c = 0 then (len : Int) - (mlen : Int) else c
        if 0 < c2 then scan_modifiers_go p len f (mid + 1) top
        else scan_modifiers_go p len f bot mid

/-- scan_modifiers over the whole table. -/
def scan_modifiers (p : List Nat) (len : Nat) : Int :=
  scan_modifiers_go p len (modlist.length + 2) 0 modlist.length

/-- patctl (pcre2test.c:358-366). -/
structure Patctl where
  options : Nat
  control : Nat
  jit : Nat
  stackguard_test : Nat
  tables_id : Nat
  locale : List Nat
  save : List Nat
deriving DecidableEq, Inhabited

/-- datctl (pcre2test.c:371-382); the fixed arrays are lists, the
NUL-separated name buffers are lists of names. -/
structure Datctl where
  options : Nat
  control : Nat
  cfail : List Nat
  copy_numbers : List Nat
  get_numbers : List Nat
  jitstack : Nat
  oveccount : Nat
  offset : Nat
  copy_names : List (List Nat)
  get_names : List (List Nat)
deriving DecidableEq, Inhabited

/-- The two context fields the modifier table can reach in a compile
context (bsr, newline, parens_nest_limit). -/
structure CompCtx where
  bsr_convention : Nat
  newline_convention : Nat
  parens_nest_limit : Nat
deriving DecidableEq

/-- The two context fields reachable in a match context. -/
structure MatchCtx where
  match_limit : Nat
  recursion_limit : Nat
deriving DecidableEq

/-- All records `decode_modifiers` can write to. -/
structure ModState where
  pat_context : CompCtx
  default_pat_context : CompCtx
  dat_context : MatchCtx
  default_dat_context : MatchCtx
  pctl : Option Patctl
  dctl : Option Datctl
deriving DecidableEq

/-- The record a modifier lands in (the pointer chosen by
check_modifier). -/
inductive RecTarget where
  | defPatCtx | patCtx | defDatCtx | datCtx | pat | dat
deriving DecidableEq

/-- Context ids (pcre2test.c:386-390). -/
def CTX_PAT : Nat := 0
def CTX_DEFPAT : Nat := 1
def CTX_DAT : Nat := 2
def CTX_DEFDAT : Nat := 3
def CTX_DEFANY : Nat := 4

/-- check_modifier (pcre2test.c:1907-1947), the field-selection part:
returns the record to modify, or none (the C function then prints "not
valid here" and decode_modifiers fails). -/
def check_modifier (m : ModStruct) (ctx : Nat) (st : ModState) : Option RecTarget :=
  match m.which with
  | .CTC =>
    if ctx = CTX_DEFPAT || ctx = CTX_DEFANY then some .defPatCtx
    else if ctx = CTX_PAT then some .patCtx else none
  | .CTM =>
    if ctx = CTX_DEFDAT || ctx = CTX_DEFANY then some .defDatCtx
    else if ctx = CTX_DAT then some .datCtx else none
  | .DAT => if st.dctl.isSome then some .dat else none
  | .PAT => if st.pctl.isSome then some .pat else none
  | .PD =>
    if st.dctl.isSome then some .dat
    else if st.pctl.isSome then some .pat else none

/-- Update the pattern record if present (writes through a NULL pctl
cannot happen: check_modifier only returns .pat when pctl is set). -/
def updPat (st : ModState) (g : Patctl → Patctl) : ModState :=
  { st with pctl := st.pctl.map g }

/-- Update the data record if present. -/
def updDat (st : ModState) (g : Datctl → Datctl) : ModState :=
  { st with dctl := st.dctl.map g }

/-- Read the 32-bit field a CTL/OPT modifier works on (`modlist` only
pairs CTL/OPT with `options`/`control` on pat or dat records; the
catch-all is unreachable with that table). -/
def getF32 (st : ModState) (t : RecTarget) (f : FieldSel) : Nat :=
  match t, f with
  | .pat, .options => (st.pctl.getD default).options
  | .pat, .control => (st.pctl.getD default).control
  | .dat, .options => (st.dctl.getD default).options
  | .dat, .control => (st.dctl.getD default).control
  | _, _ => 0

/-- Write a 32-bit value through the selected record and field (values
are stored as the C uint32 assignment would, mod 2^32). -/
def setF32 (st : ModState) (t : RecTarget) (f : FieldSel) (v0 : Nat) : ModState :=
  let v := v0 % 4294967296
  match t with
  | .pat =>
    updPat st (fun p =>
      match f with
      | .options => { p with options := v }
      | .control => { p with control := v }
      | .jit => { p with jit := v }
      | .stackguard => { p with stackguard_test := v }
      | .tablesId => { p with tables_id := v }
      | _ => p)
  | .dat =>
    updDat st (fun d =>
      match f with
      | .options => { d with options := v }
      | .control => { d with control := v }
      | .jitstack => { d with jitstack := v }
      | .oveccount => { d with oveccount := v }
      | .offset => { d with offset := v }
      | _ => d)
  | .patCtx =>
    match f with
    | .bsr => { st with pat_context := { st.pat_context with bsr_convention := v % 65536 } }
    | .newline =>
      { st with pat_context := { st.pat_context with newline_convention := v % 65536 } }
    | .parensNest => { st with pat_context := { st.pat_context with parens_nest_limit := v } }
    | _ => st
  | .defPatCtx =>
    match f with
    | .bsr =>
      { st with default_pat_context :=
        { st.default_pat_context with bsr_convention := v % 65536 } }
    | .newline =>
      { st with default_pat_context :=
        { st.default_pat_context with newline_convention := v % 65536 } }
    | .parensNest =>
      { st with default_pat_context :=
        { st.default_pat_context with parens_nest_limit := v } }
    | _ => st
  | .datCtx =>
    match f with
    | .matchLimit => { st with dat_context := { st.dat_context with match_limit := v } }
    | .recursionLimit =>
      { st with dat_context := { st.dat_context with recursion_limit := v } }
    | _ => st
  | .defDatCtx =>
    match f with
    | .matchLimit =>
      { st with default_dat_context := { st.default_dat_context with match_limit := v } }
    | .recursionLimit =>
      { st with default_dat_context :=
        { st.default_dat_context with recursion_limit := v } }
    | _ => st

/-- The IN2 pair store (only `cfail` is an IN2 target in `modlist`). -/
def setInTwo (st : ModState) (t : RecTarget) (f : FieldSel) (a b : Nat) : ModState :=
  match t, f with
  | .dat, .cfail => updDat st (fun d => { d with cfail := [a % 4294967296, b % 4294967296] })
  | _, _ => st

/-- `strtoul(pp, &endptr, 10)`: parse a decimal run, returning the value
and the position after it.  (The loop stops at the first non-digit; any
byte past the text reads as NUL.) -/
def strtoul10 (line : List Nat) : Nat → Nat → Nat → Nat × Nat
  | 0, pos, acc => (acc, pos)
  | f + 1, pos, acc =>
    let d := line.getD pos 0
    if isdigit_b d then strtoul10 line f (pos + 1) (acc * 10 + (d - 48))
    else (acc, pos)

/-- Case-insensitive byte-string comparison of `n` bytes (strncmpic). -/
def strncmpic_eq (line : List Nat) (pos : Nat) (w : List Nat) : Bool :=
  match w with
  | [] => true
  | b :: rest =>
    let x := line.getD pos 0
    let xl := if 65 ≤ x && x ≤ 90 then x + 32 else x
    let bl := if 65 ≤ b && b ≤ 90 then b + 32 else b
    (xl = bl) && strncmpic_eq line (pos + 1) rest

/-- The newline-convention name table (pcre2test.c:305-306); index i is
the value stored by a `newline=` modifier. -/
def newlines : List (List Nat) :=
  [s2b "DEFAULT", s2b "CR", s2b "LF", s2b "CRLF", s2b "ANY", s2b "ANYCRLF"]

/-- The slot-skipping walk of the MOD_NN number case
(pcre2test.c:2154-2162): `ct = MAXCPYGET - 1; while (*field != 0 &&
ct-- > 0) field++;` — returns the slot index reached and the final ct.
-/
def nnSkip : List Nat → Nat → Int → Nat × Int
  | [], idx, ct => (idx, ct)
  | v :: rest, idx, ct =>
    if v ≠ 0 && 0 < ct then nnSkip rest (idx + 1) (ct - 1)
    else if v ≠ 0 then (idx, ct - 1)
    else (idx, ct)

/-- The find-the-end scan `for (ep = p; *ep != 0 && *ep != ',' &&
!isspace(*ep); ep++)` (pcre2test.c:1997). -/
def findEp (line : List Nat) : Nat → Nat → Nat
  | 0, pos => pos
  | f + 1, pos =>
    let c := line.getD pos 0
    if c ≠ 0 && c ≠ 44 && !isspace_b c then findEp line f (pos + 1) else pos

/-- The scan for '=' bounded by ep: `pp = p; while (pp < ep && *pp != '=')
pp++;` (pcre2test.c:2009-2010). -/
def findEq (line : List Nat) : Nat → Nat → Nat → Nat
  | 0, pos, _ => pos
  | f + 1, pos, ep =>
    if pos < ep && line.getD pos 0 ≠ 61 then findEq line f (pos + 1) ep else pos

/-- The single-character abbreviation run (pcre2test.c:2030-2069):
`for (cc = *p; cc != ',' && cc != '\n' && cc != 0; cc = *(++p))`, with
doubled characters folded to (c<<8)|c, serial lookup in c1modlist, and —
note — an unconditional `*field |= value`: the leading '-' parsed by the
caller has no effect on this path. -/
def abbrevRun (line : List Nat) (ctx : Nat) : Nat → Nat → ModState → Option (Nat × ModState)
  | 0, pos, st => some (pos, st)
  | f + 1, pos, st =>
    let cc0 := line.getD pos 0
    if cc0 = 44 || cc0 = 10 || cc0 = 0 then some (pos, st)
    else
      let dbl := line.getD (pos + 1) 0 = cc0
      let cc := if dbl then cc0 * 256 + cc0 else cc0
      let pos1 := if dbl then pos + 1 else pos
      match (c1modlist.find? (fun e => e.2 = cc)) with
      | none => none
      | some e =>
        let index := scan_modifiers e.1 e.1.length
        if index < 0 then none
        else
          let m := modlist.getD index.toNat ⟨[], .PAT, .CTL, 0, .control⟩
          match check_modifier m ctx st with
          | none => none
          | some t =>
            let st2 := setF32 st t m.field (getF32 st t m.field ||| m.value)
            abbrevRun line ctx f (pos1 + 1) st2

/-- `while (isspace(*p)) p++;` (pcre2test.c:1990). -/
def skipSpaces (line : List Nat) : Nat → Nat → Nat
  | 0, pos => pos
  | f + 1, pos =>
    if isspace_b (line.getD pos 0) then skipSpaces line f (pos + 1) else pos

/-- `while (isspace(*p) || *p == ',') p++;` (pcre2test.c:1992). -/
def skipSep (line : List Nat) : Nat → Nat → Nat
  | 0, pos => pos
  | f + 1, pos =>
    let c := line.getD pos 0
    if isspace_b c || c = 44 then skipSep line f (pos + 1) else pos

/-- One full-name modifier item after the name lookup succeeded: the
data-presence check, the field lookup and the per-type dispatch
(pcre2test.c:2077-2196).  `pp` is the position after the name; `ep` the
end of the item.  Returns the updated state and the position `pp` left
at the end of the switch, or none on any of the C error returns. -/
def applyModifier (line : List Nat) (ctx : Nat) (m : ModStruct) (off : Bool)
    (pp ep : Nat) (st : ModState) : Option (Nat × ModState) :=
  let isOnOff := m.mtype = .CTL || m.mtype = .OPT
  if !isOnOff && line.getD pp 0 ≠ 61 then none
  else if !isOnOff && off then none
  else if isOnOff && line.getD pp 0 ≠ 44 && line.getD pp 0 ≠ 10 &&
      line.getD pp 0 ≠ 0 then none
  else
    let pp1 := if isOnOff then pp else pp + 1
    let len := ep - pp1
    match check_modifier m ctx st with
    | none => none
    | some t =>
      match m.mtype with
      | .CTL =>
        if off then
          some (pp1, setF32 st t m.field (getF32 st t m.field &&& (4294967295 ^^^ m.value)))
        else some (pp1, setF32 st t m.field (getF32 st t m.field ||| m.value))
      | .OPT =>
        if off then
          some (pp1, setF32 st t m.field (getF32 st t m.field &&& (4294967295 ^^^ m.value)))
        else some (pp1, setF32 st t m.field (getF32 st t m.field ||| m.value))
      | .BSR =>
        if len = 7 && strncmpic_eq line pp1 (s2b "anycrlf") then
          some (ep, setF32 st t m.field PCRE2_BSR_ANYCRLF)
        else if len = 7 && strncmpic_eq line pp1 (s2b "unicode") then
          some (ep, setF32 st t m.field PCRE2_BSR_UNICODE)
        else none
      | .IN2 =>
        if !isdigit_b (line.getD pp1 0) then none
        else
          let r1 := strtoul10 line (line.length + 1) pp1 0
          if line.getD r1.2 0 = 47 then
            let r2 := strtoul10 line (line.length + 1) (r1.2 + 1) 0
            some (r2.2, setInTwo st t m.field r1.1 r2.1)
          else some (r1.2, setInTwo st t m.field r1.1 0)
      | .INT =>
        if !isdigit_b (line.getD pp1 0) then none
        else
          let r := strtoul10 line (line.length + 1) pp1 0
          some (r.2, setF32 st t m.field r.1)
      | .NL =>
        match newlines.findIdx? (fun w => w.length = len && strncmpic_eq line pp1 w) with
        | some i => some (ep, setF32 st t m.field i)
        | none => none
      | .NN =>
        if isdigit_b (line.getD pp1 0) then
          match st.dctl with
          | none => none
          | some d =>
            let slots := if m.field = .copyNames then d.copy_numbers else d.get_numbers
            let w := nnSkip slots 0 9
            if w.2 ≤ 0 then none
            else
              let r := strtoul10 line (line.length + 1) pp1 0
              let slots2 := slots.set w.1 (r.1 % 4294967296)
              let st2 := updDat st (fun d2 =>
                if m.field = .copyNames then { d2 with copy_numbers := slots2 }
                else { d2 with get_numbers := slots2 })
              some (r.2, st2)
        else
          match st.dctl with
          | none => none
          | some d =>
            let names := if m.field = .copyNames then d.copy_names else d.get_names
            let used := names.foldl (fun a nm => a + nm.length + 1) 0
            if 64 < used + len + 1 then none
            else
              let nm := (line.drop pp1).take len
              let st2 := updDat st (fun d2 =>
                if m.field = .copyNames then { d2 with copy_names := d2.copy_names ++ [nm] }
                else { d2 with get_names := d2.get_names ++ [nm] })
              some (ep, st2)
      | .STR =>
        let nm := (line.drop pp1).take len
        match t with
        | .pat =>
          some (ep, updPat st (fun p =>
            if m.field = .locale then { p with locale := nm } else { p with save := nm }))
        | _ => some (ep, st)

/-- decode_modifiers (pcre2test.c:1972-2206): the outer item loop.
Returns (TRUE/FALSE as in C, final record state).  One fuel unit per
item; each item consumes at least one byte. -/
def decode_modifiers_go (line : List Nat) (ctx : Nat) :
    Nat → Nat → Bool → ModState → Bool × ModState
  | 0, _, _, st => (false, st)
  | f + 1, pos, first, st =>
    let posA := skipSpaces line (line.length + 1) pos
    let first2 := first && !(line.getD posA 0 = 44)
    let pos1 := skipSep line (line.length + 1) posA
    if line.getD pos1 0 = 0 then (true, st)
    else
      let ep := findEp line (line.length + 1) pos1
      let off := line.getD pos1 0 = 45
      let pos2 := if off then pos1 + 1 else pos1
      let pp := findEq line (line.length + 1) pos2 ep
      let index := scan_modifiers ((line.drop pos2).take (pp - pos2)) (pp - pos2)
      if index < 0 then
        if !first2 then (false, st)
        else
          match abbrevRun line ctx (line.length + 1) pos2 st with
          | none => (false, st)
          | some (pos3, st2) => decode_modifiers_go line ctx f pos3 first2 st2
      else
        let m := modlist.getD index.toNat ⟨[], .PAT, .CTL, 0, .control⟩
        match applyModifier line ctx m off pp ep st with
        | none => (false, st)
        | some (pp2, st2) =>
          if line.getD pp2 0 ≠ 44 && line.getD pp2 0 ≠ 10 && line.getD pp2 0 ≠ 0 then
            (false, st2)
          else decode_modifiers_go line ctx f pp2 first2 st2

/-- decode_modifiers over a modifier string. -/
def decode_modifiers (line : List Nat) (ctx : Nat) (st : ModState) : Bool × ModState :=
  decode_modifiers_go line ctx (line.length + 2) 0 true st

/-! ## Definitions: the global-match driver
(the /g and /G loop of process_data, pcre2test.c:3609-4120) -/

/-- Result of one call of the external match primitive, as the driver
distinguishes them: a non-negative capture count with the match span in
ovector[0..1], a partial match, no match, or a hard error. -/
inductive MatchRes where
  | success (ov0 ov1 : Nat)
  | partialM
  | noMatch
  | errorM (e : Int)

/-- The external match primitive (PCRE2_MATCH, pcre2test.c:3733-3734):
called with the current subject view base (in code units), the remaining
length in code units as the driver passes it (`ulen`), the start offset,
and whether PCRE2_NOTEMPTY_ATSTART|PCRE2_ANCHORED is set (`g_notempty`).
-/
def Matcher : Type := Nat → Nat → Nat → Bool → MatchRes

/-- Modelled from the spec: the newline-convention codes come from the
engine's public header (not under src/); standard values CR=1, LF=2,
CRLF=3, ANY=4, ANYCRLF=5.  The driver only tests membership in
{CRLF, ANY, ANYCRLF}. -/
def PCRE2_NEWLINE_CR : Nat := 1
def PCRE2_NEWLINE_LF : Nat := 2
def PCRE2_NEWLINE_CRLF : Nat := 3
def PCRE2_NEWLINE_ANY : Nat := 4
def PCRE2_NEWLINE_ANYCRLF : Nat := 5

/-- The per-run configuration the loop reads: the two global-mode
control bits, UTF mode, the width (`test_mode`/`code_unit_size`) and the
compiled pattern's newline convention. -/
structure GlobCfg where
  globalg : Bool
  altglobal : Bool
  utf : Bool
  mode8 : Bool
  mode32 : Bool
  cus : Nat
  nl : Nat

/-- How the loop ended. -/
inductive GlobEnd where
  | singleDone
  | endOfSubject
  | partialEnd
  | noMatchEnd
  | errorEnd (e : Int)
  | fuelOut
deriving DecidableEq

/-- What the loop did: the ovector span of every reported (successful)
match, the subject view and offset passed to every match call, and how
the loop ended. -/
structure GlobResult where
  reports : List (Nat × Nat)
  trace : List (Nat × Nat × Nat × Nat)
  ending : GlobEnd
deriving DecidableEq

/-- size_t subtraction (the driver's `len`/`ulen` updates and the
`ulen - 1` in the CRLF test are size_t arithmetic and can wrap). -/
def szSub (a b : Nat) : Nat :=
  if b ≤ a then a - b else a + 18446744073709551616 - b

/-- The UTF-8 forward skip of the fake one-character advance
(pcre2test.c:4021-4023): step end_offset past continuation bytes. -/
def skipCont8 (subj : List Nat) (ppu ulen : Nat) : Nat → Nat → Nat
  | 0, eo => eo
  | f + 1, eo =>
    if eo < ulen && (subj.getD (ppu + eo) 0) &&& 0xc0 = 0x80 then
      skipCont8 subj ppu ulen f (eo + 1)
    else eo

/-- The UTF-16 forward skip (pcre2test.c:4024-4026): step past low
surrogates. -/
def skipCont16 (subj : List Nat) (ppu ulen : Nat) : Nat → Nat → Nat
  | 0, eo => eo
  | f + 1, eo =>
    if eo < ulen && (subj.getD (ppu + eo) 0) &&& 0xfc00 = 0xdc00 then
      skipCont16 subj ppu ulen f (eo + 1)
    else eo

/-- The global-match loop (pcre2test.c:3611-4120), specialised to the
plain PCRE2_MATCH path (no DFA, no POSIX, no timing) with an ovector
large enough for the whole-match span.  State per iteration: the view
base `ppu` (pp as a code-unit index into the subject), the driver's
byte length `len` and code-unit length `ulen`, the search offset
(dat_datctl.offset) and the g_notempty flag.  One fuel unit per
iteration. -/
def globLoop (M : Matcher) (cfg : GlobCfg) (subj : List Nat) :
    Nat → Nat → Nat → Nat → Nat → Bool → List (Nat × Nat) →
    List (Nat × Nat × Nat × Nat) → GlobResult
  | 0, _, _, _, _, _, reports, trace =>
    { reports := reports, trace := trace, ending := .fuelOut }
  | fuel + 1, ppu, len, ulen, offset, gne, reports, trace =>
    let trace2 := trace ++ [(ppu, len, ulen, offset)]
    match M ppu ulen offset gne with
    | .partialM => { reports := reports, trace := trace2, ending := .partialEnd }
    | .errorM e => { reports := reports, trace := trace2, ending := .errorEnd e }
    | .noMatch =>
      if gne then
        -- a null match is being retried: fake a one-character match
        -- (pcre2test.c:4006-4031)
        let so := offset
        let eoA := so + 1
        let crlf := (cfg.nl = PCRE2_NEWLINE_CRLF || cfg.nl = PCRE2_NEWLINE_ANY ||
            cfg.nl = PCRE2_NEWLINE_ANYCRLF) && decide (so < szSub ulen 1) &&
          (subj.getD (ppu + so) 0 = 13) && (subj.getD (ppu + eoA) 0 = 10)
        let eo := if crlf then eoA + 1
          else if cfg.utf && !cfg.mode32 then
            (if cfg.mode8 then skipCont8 subj ppu ulen ulen eoA
             else skipCont16 subj ppu ulen ulen eoA)
          else eoA
        -- fall through to the continuation step with ovector = (so, eo),
        -- nothing reported (pcre2test.c:4029-4030, 4082-4119)
        if !(cfg.globalg || cfg.altglobal) then
          { reports := reports, trace := trace2, ending := .singleDone }
        else
          let gne2 := decide (so = eo)   -- so < eo always; stays false
          if so = eo && eo = ulen then
            { reports := reports, trace := trace2, ending := .endOfSubject }
          else if cfg.globalg then
            globLoop M cfg subj fuel ppu len ulen eo gne2 reports trace2
          else
            globLoop M cfg subj fuel (ppu + eo) (szSub len eo)
              (szSub ulen (eo * cfg.cus)) offset gne2 reports trace2
      else { reports := reports, trace := trace2, ending := .noMatchEnd }
    | .success ov0 ov1 =>
      let reports2 := reports ++ [(ov0, ov1)]
      if !(cfg.globalg || cfg.altglobal) then
        { reports := reports2, trace := trace2, ending := .singleDone }
      else
        let eo := ov1
        if ov0 = eo && eo = ulen then
          { reports := reports2, trace := trace2, ending := .endOfSubject }
        else
          let gne2 := decide (ov0 = eo)
          if cfg.globalg then
            globLoop M cfg subj fuel ppu len ulen eo gne2 reports2 trace2
          else
            globLoop M cfg subj fuel (ppu + eo) (szSub len eo)
              (szSub ulen (eo * cfg.cus)) offset gne2 reports2 trace2

/-- The driver entered at the top of the loop: view base 0, g_notempty
clear, the byte length and code-unit length as process_data computed
them (pcre2test.c:3480-3481), and the configured start offset. -/
def globRun (M : Matcher) (cfg : GlobCfg) (subj : List Nat)
    (fuel len ulen offset : Nat) : GlobResult :=
  globLoop M cfg subj fuel 0 len ulen offset false [] []

/-- A match oracle for a pattern that matches the empty string at every
position: succeeds with the empty span at the start offset, except that
with PCRE2_NOTEMPTY_ATSTART|PCRE2_ANCHORED set an empty-only pattern
cannot match at all. -/
def emptyAllMatcher : Matcher := fun _ _ offset gne =>
  if gne then .noMatch else .success offset offset


/-! ## Definitions: concrete fixtures used by the examples and theorems -/

/-- A data line whose duplication close forces the buffer to grow:
backslash-[ , 400 copies of A, then ]{100}.  needlen becomes
408 + 400*98 = 39608, past the initial 32768 capacity. -/
def dupGrowLine : List Nat := [92, 91] ++ List.replicate 400 65 ++ [93, 123, 49, 48, 48, 125]

def encStale (r : Except EncErr EncOut) : Bool :=
  match r with
  | .ok o => o.staleRead
  | .error _ => false

/-- A pattern record with only the extended flag set, for the modifier
overlay scenarios. -/
def patctlX : Patctl :=
  { options := PCRE2_EXTENDED, control := 0, jit := 0, stackguard_test := 0,
    tables_id := 0, locale := [], save := [] }

/-- A modifier-engine state carrying a pattern record, as in a
decode_modifiers call from pattern processing (dctl is NULL there). -/
def mstOf (p : Patctl) : ModState :=
  { pat_context := ⟨0, 0, 0⟩, default_pat_context := ⟨0, 0, 0⟩,
    dat_context := ⟨0, 0⟩, default_dat_context := ⟨0, 0⟩,
    pctl := some p, dctl := none }

/-- An 8-bit /g configuration with newline convention LF. -/
def cfg8g : GlobCfg :=
  { globalg := true, altglobal := false, utf := false, mode8 := true, mode32 := false,
    cus := 1, nl := PCRE2_NEWLINE_LF }

/-- The same configuration with the CRLF newline convention. -/
def cfg8gCrlf : GlobCfg := { cfg8g with nl := PCRE2_NEWLINE_CRLF }

/-- A 16-bit /G configuration. -/
def cfg16G : GlobCfg :=
  { globalg := false, altglobal := true, utf := false, mode8 := false, mode32 := false,
    cus := 2, nl := PCRE2_NEWLINE_LF }

/-- A matcher that matches the span [0,1) of the initial view once. -/
def onceMatcher : Matcher := fun ppu _ _ _ =>
  if ppu = 0 then .success 0 1 else .noMatch

/-- A concrete scanner state with a live duplication whose close forces a grow. -/
def encStClose : EncSt :=
  { cap := 4, allocId := 0, rbuf := [66, 65], qoff := 2, startDup := some (0, 0),
    needlen := 4, rvals := [], rwarns := [], staleRead := false, pastCap := false }

/-! ## Theorems -/

-- quick sanity tests
example : ord2utf8 0x41 = some [0x41] := by decide
example : utf82ord [0x41, 9, 9] = (1, 0x41) := by decide
example : ord2utf8 0x80 = some [0xc2, 0x80] := by decide
example : utf82ord [0xc2, 0x80] = (2, 0x80) := by decide
example : ord2utf8 0x800 = some [0xe0, 0xa0, 0x80] := by decide
example : utf82ord [0xe0, 0xa0, 0x80] = (3, 0x800) := by decide
example : ord2utf8 0x10000 = some [0xf0, 0x90, 0x80, 0x80] := by decide
example : utf82ord [0xf0, 0x90, 0x80, 0x80] = (4, 0x10000) := by decide
example : utf82ord [0xc0, 0x80] = (-2, 0) := by decide   -- overlong
example : utf82ord [0x80] = (0, 0) := by decide          -- isolated continuation
example : utf82ord [0xc2, 0x41] = (-1, 0) := by decide   -- bad continuation
example : ord2utf8 0x7fffffff = some [0xfd, 0xbf, 0xbf, 0xbf, 0xbf, 0xbf] := by decide
example : utf82ord [0xfd, 0xbf, 0xbf, 0xbf, 0xbf, 0xbf] = (6, 0x7fffffff) := by decide


example : to16 [0x41, 0x42] false = .ok [0x41, 0x42] := rfl
example : to16 [0xf0, 0x90, 0x80, 0x80] true = .ok [0xD800, 0xDC00] := rfl
example : to16 [0xf0, 0x90, 0x80, 0x80] false = .error (-3) := rfl
example : to16 [0x80] true = .error (-1) := rfl
example : to16 [0xed, 0xa0, 0x80] false = .ok [0xD800] := rfl


theorem lor_two_pow_mul_add {k q b : Nat} (hb : b < 2 ^ k) :
    (2 ^ k * q) ||| b = 2 ^ k * q + b := by
  induction k generalizing q b with
  | zero =>
    have hb0 : b = 0 := by omega
    subst hb0; simp
  | succ k ih =>
    have hb2 : b >>> 1 < 2 ^ k := by
      have h1 : b >>> 1 = b / 2 := Nat.shiftRight_one b
      have h2 : (2 : Nat) ^ (k + 1) = 2 ^ k * 2 := by ring
      rw [h1]; omega
    have hbit : Nat.bit (b.testBit 0) (b >>> 1) = b := Nat.bit_testBit_zero_shiftRight_one b
    have hsplit : 2 * (b >>> 1) + (b.testBit 0).toNat = b := by
      have := hbit
      rw [Nat.bit_val] at this
      omega
    have ha : 2 ^ (k + 1) * q = Nat.bit false (2 ^ k * q) := by
      rw [Nat.bit_val]; simp; ring
    calc 2 ^ (k + 1) * q ||| b
        = Nat.bit false (2 ^ k * q) ||| Nat.bit (b.testBit 0) (b >>> 1) := by rw [ha, hbit]
      _ = Nat.bit (false || b.testBit 0) ((2 ^ k * q) ||| (b >>> 1)) := Nat.lor_bit _ _ _ _
      _ = Nat.bit (b.testBit 0) (2 ^ k * q + b >>> 1) := by rw [Bool.false_or, ih hb2]
      _ = 2 * (2 ^ k * q + b >>> 1) + (b.testBit 0).toNat := Nat.bit_val _ _
      _ = 2 ^ (k + 1) * q + b := by
          have h2 : (2 : Nat) ^ (k + 1) * q = 2 * (2 ^ k * q) := by ring
          rw [h2]; omega

theorem and_sixtythree (x : Nat) : x &&& 0x3f = x % 64 := by
  have h := Nat.and_pow_two_sub_one_eq_mod x 6
  norm_num at h
  exact h

theorem addcount_lead1 : ∀ h, h < 32 → utf8_addcount (0xc0 + h) = 1 := by decide
theorem lead1_mask : ∀ h, h < 32 → (0xc0 + h) &&& 0x1f = h := by decide
theorem cont_mask_c0 : ∀ m, m < 64 → (0x80 + m) &&& 0xc0 = 0x80 := by decide
theorem cont_mask_3f : ∀ m, m < 64 → (0x80 + m) &&& 0x3f = m := by decide

theorem lor_80 {m : Nat} (hm : m < 64) : 0x80 ||| m = 0x80 + m := by
  have h : (0x80 : Nat) = 2 ^ 7 * 1 := by norm_num
  rw [h, lor_two_pow_mul_add (by omega)]

theorem lor_c0 {m : Nat} (hm : m < 64) : 0xc0 ||| m = 0xc0 + m := by
  have h : (0xc0 : Nat) = 2 ^ 6 * 3 := by norm_num
  rw [h, lor_two_pow_mul_add (by omega)]

theorem shiftRight_div (x k : Nat) : x >>> k = x / 2 ^ k := Nat.shiftRight_eq_div_pow x k


theorem addcount_ascii : ∀ x, x < 128 → utf8_addcount x = -1 := by decide
theorem addcount_lead2 : ∀ h, h < 16 → utf8_addcount (0xe0 + h) = 2 := by decide
theorem addcount_lead3 : ∀ h, h < 8 → utf8_addcount (0xf0 + h) = 3 := by decide
theorem addcount_lead4 : ∀ h, h < 4 → utf8_addcount (0xf8 + h) = 4 := by decide
theorem addcount_lead5 : ∀ h, h < 2 → utf8_addcount (0xfc + h) = 5 := by decide
theorem lead2_mask : ∀ h, h < 16 → (0xe0 + h) &&& 0x0f = h := by decide
theorem lead3_mask : ∀ h, h < 8 → (0xf0 + h) &&& 0x07 = h := by decide
theorem lead4_mask : ∀ h, h < 4 → (0xf8 + h) &&& 0x03 = h := by decide
theorem lead5_mask : ∀ h, h < 2 → (0xfc + h) &&& 0x01 = h := by decide

theorem lor_e0 {m : Nat} (hm : m < 32) : 0xe0 ||| m = 0xe0 + m := by
  have h : (0xe0 : Nat) = 2 ^ 5 * 7 := by norm_num
  rw [h, lor_two_pow_mul_add (by omega)]

theorem lor_f0 {m : Nat} (hm : m < 16) : 0xf0 ||| m = 0xf0 + m := by
  have h : (0xf0 : Nat) = 2 ^ 4 * 15 := by norm_num
  rw [h, lor_two_pow_mul_add (by omega)]

theorem lor_f8 {m : Nat} (hm : m < 8) : 0xf8 ||| m = 0xf8 + m := by
  have h : (0xf8 : Nat) = 2 ^ 3 * 31 := by norm_num
  rw [h, lor_two_pow_mul_add (by omega)]

theorem lor_fc {m : Nat} (hm : m < 4) : 0xfc ||| m = 0xfc + m := by
  have h : (0xfc : Nat) = 2 ^ 2 * 63 := by norm_num
  rw [h, lor_two_pow_mul_add (by omega)]

/-- One step of reassembling a value from its 6-bit UTF-8 payload groups. -/
theorem step_lor (c s t : Nat) (ht : t = s + 6) :
    (c >>> t) <<< t ||| ((c >>> s) % 64) <<< s = (c >>> s) <<< s := by
  subst ht
  rw [Nat.shiftRight_eq_div_pow, Nat.shiftRight_eq_div_pow, Nat.shiftLeft_eq,
    Nat.shiftLeft_eq, Nat.shiftLeft_eq]
  have hdd : c / 2 ^ (s + 6) = c / 2 ^ s / 64 := by
    rw [Nat.div_div_eq_div_mul]
    congr 1
    ring
  rw [hdd]
  have hcomm : c / 2 ^ s / 64 * 2 ^ (s + 6) = 2 ^ (s + 6) * (c / 2 ^ s / 64) :=
    Nat.mul_comm _ _
  rw [hcomm, lor_two_pow_mul_add (by
    have h1 : (2 : Nat) ^ (s + 6) = 2 ^ s * 64 := by ring
    have h2 : c / 2 ^ s % 64 < 64 := Nat.mod_lt _ (by norm_num)
    have h3 : (0 : Nat) < 2 ^ s := Nat.pos_pow_of_pos s (by norm_num)
    calc c / 2 ^ s % 64 * 2 ^ s < 64 * 2 ^ s := by
          exact Nat.mul_lt_mul_of_lt_of_le h2 (Nat.le_refl _) h3
      _ = 2 ^ (s + 6) := by ring)]
  have hx : 64 * (c / 2 ^ s / 64) + c / 2 ^ s % 64 = c / 2 ^ s := by omega
  calc 2 ^ (s + 6) * (c / 2 ^ s / 64) + c / 2 ^ s % 64 * 2 ^ s
      = (64 * (c / 2 ^ s / 64) + c / 2 ^ s % 64) * 2 ^ s := by ring
    _ = c / 2 ^ s * 2 ^ s := by rw [hx]

/-- Final step: the bottom 6-bit group. -/
theorem step_lor0 (c : Nat) : (c >>> 6) <<< 6 ||| c % 64 = c := by
  have h := step_lor c 0 6 rfl
  simp only [Nat.shiftRight_zero, Nat.shiftLeft_zero] at h
  exact h

theorem shiftRight_as_div (c k v : Nat) (hv : 2 ^ k = v) : c >>> k = c / v := by
  rw [Nat.shiftRight_eq_div_pow, hv]

theorem rt_case0 (c : Nat) (h1 : c ≤ 0x7f) (rest : List Nat) :
    utf82ord ((0 ||| (c >>> 0)) :: rest) = (1, c) := by
  have hb : (0 : Nat) ||| (c >>> 0) = c := by simp
  rw [hb]
  rw [utf82ord]
  simp only [List.getD_cons_zero]
  rw [addcount_ascii _ (by omega)]
  norm_num

theorem rt_case1 (c : Nat) (h0 : 0x7f < c) (h1 : c ≤ 0x7ff) (rest : List Nat) :
    utf82ord ((0xc0 ||| (c >>> 6)) :: (0x80 ||| ((c >>> 0) &&& 0x3f)) :: rest) = (2, c) := by
  have h6 : c >>> 6 = c / 64 := shiftRight_as_div c 6 64 (by norm_num)
  have hdlt : c / 64 < 32 := by omega
  have hmlt : c % 64 < 64 := by omega
  have hb0 : (0xc0 : Nat) ||| (c >>> 6) = 0xc0 + c >>> 6 := by
    rw [h6, lor_c0 (by omega)]
  have hb1 : (0x80 : Nat) ||| ((c >>> 0) &&& 0x3f) = 0x80 + c % 64 := by
    rw [Nat.shiftRight_zero, and_sixtythree, lor_80 hmlt]
  have hacc : utf8_addcount (0xc0 + c >>> 6) = 1 := by rw [h6]; exact addcount_lead1 _ hdlt
  have hcontc : (0x80 + c % 64) &&& 0xc0 = 0x80 := cont_mask_c0 _ hmlt
  have hcont3 : (0x80 + c % 64) &&& 0x3f = c % 64 := cont_mask_3f _ hmlt
  rw [hb0, hb1]
  simp only [utf82ord, List.getD_cons_zero, List.getD_cons_succ, hacc, utf82ord_loop,
    hcontc, hcont3]
  norm_num [utf8_table3, show (1 : Int).toNat = 1 from rfl, show (2 : Int).toNat = 2 from rfl, show (3 : Int).toNat = 3 from rfl, show (4 : Int).toNat = 4 from rfl, show (5 : Int).toNat = 5 from rfl]
  have hmask0 : (0xc0 + c >>> 6) &&& 0x1f = c >>> 6 := by rw [h6]; exact lead1_mask _ hdlt
  rw [hmask0, step_lor0 c]
  have hidx : utf8_tbl_idx c = 1 := by
    rw [utf8_tbl_idx, if_neg (by omega), if_pos (by omega)]
  rw [hidx]
  simp

theorem rt_case2 (c : Nat) (h0 : 0x7ff < c) (h1 : c ≤ 0xffff) (rest : List Nat) :
    utf82ord ((0xe0 ||| (c >>> 12)) :: (0x80 ||| ((c >>> 6) &&& 0x3f)) ::
      (0x80 ||| ((c >>> 0) &&& 0x3f)) :: rest) = (3, c) := by
  have h12 : c >>> 12 = c / 4096 := shiftRight_as_div c 12 4096 (by norm_num)
  have hdlt : c / 4096 < 16 := by omega
  have hm6 : (c >>> 6) % 64 < 64 := by omega
  have hm0 : c % 64 < 64 := by omega
  have hb0 : (0xe0 : Nat) ||| (c >>> 12) = 0xe0 + c >>> 12 := by
    rw [h12, lor_e0 (by omega)]
  have hb1 : (0x80 : Nat) ||| ((c >>> 6) &&& 0x3f) = 0x80 + (c >>> 6) % 64 := by
    rw [and_sixtythree, lor_80 hm6]
  have hb2 : (0x80 : Nat) ||| ((c >>> 0) &&& 0x3f) = 0x80 + c % 64 := by
    rw [Nat.shiftRight_zero, and_sixtythree, lor_80 hm0]
  have hacc : utf8_addcount (0xe0 + c >>> 12) = 2 := by rw [h12]; exact addcount_lead2 _ hdlt
  have hc1 : (0x80 + (c >>> 6) % 64) &&& 0xc0 = 0x80 := cont_mask_c0 _ hm6
  have hc1m : (0x80 + (c >>> 6) % 64) &&& 0x3f = (c >>> 6) % 64 := cont_mask_3f _ hm6
  have hc2 : (0x80 + c % 64) &&& 0xc0 = 0x80 := cont_mask_c0 _ hm0
  have hc2m : (0x80 + c % 64) &&& 0x3f = c % 64 := cont_mask_3f _ hm0
  rw [hb0, hb1, hb2]
  simp only [utf82ord, List.getD_cons_zero, List.getD_cons_succ, hacc, utf82ord_loop,
    hc1, hc1m, hc2, hc2m]
  norm_num [utf8_table3, show (1 : Int).toNat = 1 from rfl, show (2 : Int).toNat = 2 from rfl, show (3 : Int).toNat = 3 from rfl, show (4 : Int).toNat = 4 from rfl, show (5 : Int).toNat = 5 from rfl]
  have hmask0 : (0xe0 + c >>> 12) &&& 0x0f = c >>> 12 := by rw [h12]; exact lead2_mask _ hdlt
  rw [hmask0, step_lor c 6 12 (by norm_num), step_lor0 c]
  have hidx : utf8_tbl_idx c = 2 := by
    rw [utf8_tbl_idx, if_neg (by omega), if_neg (by omega), if_pos (by omega)]
  rw [hidx]
  simp

theorem rt_case3 (c : Nat) (h0 : 0xffff < c) (h1 : c ≤ 0x1fffff) (rest : List Nat) :
    utf82ord ((0xf0 ||| (c >>> 18)) :: (0x80 ||| ((c >>> 12) &&& 0x3f)) ::
      (0x80 ||| ((c >>> 6) &&& 0x3f)) :: (0x80 ||| ((c >>> 0) &&& 0x3f)) :: rest) = (4, c) := by
  have h18 : c >>> 18 = c / 262144 := shiftRight_as_div c 18 262144 (by norm_num)
  have hdlt : c / 262144 < 8 := by omega
  have hm12 : (c >>> 12) % 64 < 64 := by omega
  have hm6 : (c >>> 6) % 64 < 64 := by omega
  have hm0 : c % 64 < 64 := by omega
  have hb0 : (0xf0 : Nat) ||| (c >>> 18) = 0xf0 + c >>> 18 := by
    rw [h18, lor_f0 (by omega)]
  have hb1 : (0x80 : Nat) ||| ((c >>> 12) &&& 0x3f) = 0x80 + (c >>> 12) % 64 := by
    rw [and_sixtythree, lor_80 hm12]
  have hb2 : (0x80 : Nat) ||| ((c >>> 6) &&& 0x3f) = 0x80 + (c >>> 6) % 64 := by
    rw [and_sixtythree, lor_80 hm6]
  have hb3 : (0x80 : Nat) ||| ((c >>> 0) &&& 0x3f) = 0x80 + c % 64 := by
    rw [Nat.shiftRight_zero, and_sixtythree, lor_80 hm0]
  have hacc : utf8_addcount (0xf0 + c >>> 18) = 3 := by rw [h18]; exact addcount_lead3 _ hdlt
  have hc1 : (0x80 + (c >>> 12) % 64) &&& 0xc0 = 0x80 := cont_mask_c0 _ hm12
  have hc1m : (0x80 + (c >>> 12) % 64) &&& 0x3f = (c >>> 12) % 64 := cont_mask_3f _ hm12
  have hc2 : (0x80 + (c >>> 6) % 64) &&& 0xc0 = 0x80 := cont_mask_c0 _ hm6
  have hc2m : (0x80 + (c >>> 6) % 64) &&& 0x3f = (c >>> 6) % 64 := cont_mask_3f _ hm6
  have hc3 : (0x80 + c % 64) &&& 0xc0 = 0x80 := cont_mask_c0 _ hm0
  have hc3m : (0x80 + c % 64) &&& 0x3f = c % 64 := cont_mask_3f _ hm0
  rw [hb0, hb1, hb2, hb3]
  simp only [utf82ord, List.getD_cons_zero, List.getD_cons_succ, hacc, utf82ord_loop,
    hc1, hc1m, hc2, hc2m, hc3, hc3m]
  norm_num [utf8_table3, show (1 : Int).toNat = 1 from rfl, show (2 : Int).toNat = 2 from rfl, show (3 : Int).toNat = 3 from rfl, show (4 : Int).toNat = 4 from rfl, show (5 : Int).toNat = 5 from rfl]
  have hmask0 : (0xf0 + c >>> 18) &&& 0x07 = c >>> 18 := by rw [h18]; exact lead3_mask _ hdlt
  rw [hmask0, step_lor c 12 18 (by norm_num), step_lor c 6 12 (by norm_num), step_lor0 c]
  have hidx : utf8_tbl_idx c = 3 := by
    rw [utf8_tbl_idx, if_neg (by omega), if_neg (by omega), if_neg (by omega),
      if_pos (by omega)]
  rw [hidx]
  simp

theorem rt_case4 (c : Nat) (h0 : 0x1fffff < c) (h1 : c ≤ 0x3ffffff) (rest : List Nat) :
    utf82ord ((0xf8 ||| (c >>> 24)) :: (0x80 ||| ((c >>> 18) &&& 0x3f)) ::
      (0x80 ||| ((c >>> 12) &&& 0x3f)) :: (0x80 ||| ((c >>> 6) &&& 0x3f)) ::
      (0x80 ||| ((c >>> 0) &&& 0x3f)) :: rest) = (5, c) := by
  have h24 : c >>> 24 = c / 16777216 := shiftRight_as_div c 24 16777216 (by norm_num)
  have hdlt : c / 16777216 < 4 := by omega
  have hm18 : (c >>> 18) % 64 < 64 := by omega
  have hm12 : (c >>> 12) % 64 < 64 := by omega
  have hm6 : (c >>> 6) % 64 < 64 := by omega
  have hm0 : c % 64 < 64 := by omega
  have hb0 : (0xf8 : Nat) ||| (c >>> 24) = 0xf8 + c >>> 24 := by
    rw [h24, lor_f8 (by omega)]
  have hb1 : (0x80 : Nat) ||| ((c >>> 18) &&& 0x3f) = 0x80 + (c >>> 18) % 64 := by
    rw [and_sixtythree, lor_80 hm18]
  have hb2 : (0x80 : Nat) ||| ((c >>> 12) &&& 0x3f) = 0x80 + (c >>> 12) % 64 := by
    rw [and_sixtythree, lor_80 hm12]
  have hb3 : (0x80 : Nat) ||| ((c >>> 6) &&& 0x3f) = 0x80 + (c >>> 6) % 64 := by
    rw [and_sixtythree, lor_80 hm6]
  have hb4 : (0x80 : Nat) ||| ((c >>> 0) &&& 0x3f) = 0x80 + c % 64 := by
    rw [Nat.shiftRight_zero, and_sixtythree, lor_80 hm0]
  have hacc : utf8_addcount (0xf8 + c >>> 24) = 4 := by rw [h24]; exact addcount_lead4 _ hdlt
  have hc1 : (0x80 + (c >>> 18) % 64) &&& 0xc0 = 0x80 := cont_mask_c0 _ hm18
  have hc1m : (0x80 + (c >>> 18) % 64) &&& 0x3f = (c >>> 18) % 64 := cont_mask_3f _ hm18
  have hc2 : (0x80 + (c >>> 12) % 64) &&& 0xc0 = 0x80 := cont_mask_c0 _ hm12
  have hc2m : (0x80 + (c >>> 12) % 64) &&& 0x3f = (c >>> 12) % 64 := cont_mask_3f _ hm12
  have hc3 : (0x80 + (c >>> 6) % 64) &&& 0xc0 = 0x80 := cont_mask_c0 _ hm6
  have hc3m : (0x80 + (c >>> 6) % 64) &&& 0x3f = (c >>> 6) % 64 := cont_mask_3f _ hm6
  have hc4 : (0x80 + c % 64) &&& 0xc0 = 0x80 := cont_mask_c0 _ hm0
  have hc4m : (0x80 + c % 64) &&& 0x3f = c % 64 := cont_mask_3f _ hm0
  rw [hb0, hb1, hb2, hb3, hb4]
  simp only [utf82ord, List.getD_cons_zero, List.getD_cons_succ, hacc, utf82ord_loop,
    hc1, hc1m, hc2, hc2m, hc3, hc3m, hc4, hc4m]
  norm_num [utf8_table3, show (1 : Int).toNat = 1 from rfl, show (2 : Int).toNat = 2 from rfl, show (3 : Int).toNat = 3 from rfl, show (4 : Int).toNat = 4 from rfl, show (5 : Int).toNat = 5 from rfl]
  have hmask0 : (0xf8 + c >>> 24) &&& 0x03 = c >>> 24 := by rw [h24]; exact lead4_mask _ hdlt
  rw [hmask0, step_lor c 18 24 (by norm_num), step_lor c 12 18 (by norm_num),
    step_lor c 6 12 (by norm_num), step_lor0 c]
  have hidx : utf8_tbl_idx c = 4 := by
    rw [utf8_tbl_idx, if_neg (by omega), if_neg (by omega), if_neg (by omega),
      if_neg (by omega), if_pos (by omega)]
  rw [hidx]
  simp

theorem rt_case5 (c : Nat) (h0 : 0x3ffffff < c) (h1 : c ≤ 0x7fffffff) (rest : List Nat) :
    utf82ord ((0xfc ||| (c >>> 30)) :: (0x80 ||| ((c >>> 24) &&& 0x3f)) ::
      (0x80 ||| ((c >>> 18) &&& 0x3f)) :: (0x80 ||| ((c >>> 12) &&& 0x3f)) ::
      (0x80 ||| ((c >>> 6) &&& 0x3f)) :: (0x80 ||| ((c >>> 0) &&& 0x3f)) :: rest) = (6, c) := by
  have h30 : c >>> 30 = c / 1073741824 := shiftRight_as_div c 30 1073741824 (by norm_num)
  have hdlt : c / 1073741824 < 2 := by omega
  have hm24 : (c >>> 24) % 64 < 64 := by omega
  have hm18 : (c >>> 18) % 64 < 64 := by omega
  have hm12 : (c >>> 12) % 64 < 64 := by omega
  have hm6 : (c >>> 6) % 64 < 64 := by omega
  have hm0 : c % 64 < 64 := by omega
  have hb0 : (0xfc : Nat) ||| (c >>> 30) = 0xfc + c >>> 30 := by
    rw [h30, lor_fc (by omega)]
  have hb1 : (0x80 : Nat) ||| ((c >>> 24) &&& 0x3f) = 0x80 + (c >>> 24) % 64 := by
    rw [and_sixtythree, lor_80 hm24]
  have hb2 : (0x80 : Nat) ||| ((c >>> 18) &&& 0x3f) = 0x80 + (c >>> 18) % 64 := by
    rw [and_sixtythree, lor_80 hm18]
  have hb3 : (0x80 : Nat) ||| ((c >>> 12) &&& 0x3f) = 0x80 + (c >>> 12) % 64 := by
    rw [and_sixtythree, lor_80 hm12]
  have hb4 : (0x80 : Nat) ||| ((c >>> 6) &&& 0x3f) = 0x80 + (c >>> 6) % 64 := by
    rw [and_sixtythree, lor_80 hm6]
  have hb5 : (0x80 : Nat) ||| ((c >>> 0) &&& 0x3f) = 0x80 + c % 64 := by
    rw [Nat.shiftRight_zero, and_sixtythree, lor_80 hm0]
  have hacc : utf8_addcount (0xfc + c >>> 30) = 5 := by rw [h30]; exact addcount_lead5 _ hdlt
  have hc1 : (0x80 + (c >>> 24) % 64) &&& 0xc0 = 0x80 := cont_mask_c0 _ hm24
  have hc1m : (0x80 + (c >>> 24) % 64) &&& 0x3f = (c >>> 24) % 64 := cont_mask_3f _ hm24
  have hc2 : (0x80 + (c >>> 18) % 64) &&& 0xc0 = 0x80 := cont_mask_c0 _ hm18
  have hc2m : (0x80 + (c >>> 18) % 64) &&& 0x3f = (c >>> 18) % 64 := cont_mask_3f _ hm18
  have hc3 : (0x80 + (c >>> 12) % 64) &&& 0xc0 = 0x80 := cont_mask_c0 _ hm12
  have hc3m : (0x80 + (c >>> 12) % 64) &&& 0x3f = (c >>> 12) % 64 := cont_mask_3f _ hm12
  have hc4 : (0x80 + (c >>> 6) % 64) &&& 0xc0 = 0x80 := cont_mask_c0 _ hm6
  have hc4m : (0x80 + (c >>> 6) % 64) &&& 0x3f = (c >>> 6) % 64 := cont_mask_3f _ hm6
  have hc5 : (0x80 + c % 64) &&& 0xc0 = 0x80 := cont_mask_c0 _ hm0
  have hc5m : (0x80 + c % 64) &&& 0x3f = c % 64 := cont_mask_3f _ hm0
  rw [hb0, hb1, hb2, hb3, hb4, hb5]
  simp only [utf82ord, List.getD_cons_zero, List.getD_cons_succ, hacc, utf82ord_loop,
    hc1, hc1m, hc2, hc2m, hc3, hc3m, hc4, hc4m, hc5, hc5m]
  norm_num [utf8_table3, show (1 : Int).toNat = 1 from rfl, show (2 : Int).toNat = 2 from rfl, show (3 : Int).toNat = 3 from rfl, show (4 : Int).toNat = 4 from rfl, show (5 : Int).toNat = 5 from rfl]
  have hmask0 : (0xfc + c >>> 30) % 2 = c >>> 30 := by rw [h30]; omega
  rw [hmask0, step_lor c 24 30 (by norm_num), step_lor c 18 24 (by norm_num),
    step_lor c 12 18 (by norm_num), step_lor c 6 12 (by norm_num), step_lor0 c]
  have hidx : utf8_tbl_idx c = 5 := by
    rw [utf8_tbl_idx, if_neg (by omega), if_neg (by omega), if_neg (by omega),
      if_neg (by omega), if_neg (by omega), if_pos (by omega)]
  rw [hidx]
  simp

/-- Round trip of the codepoint codec: decoding the bytes written by
`ord2utf8` yields the original value and consumes exactly the bytes
written, for every value the encoder accepts, and with arbitrary
following bytes in the buffer. -/
theorem utf82ord_ord2utf8 (c : Nat) (bs rest : List Nat) (henc : ord2utf8 c = some bs) :
    utf82ord (bs ++ rest) = ((bs.length : Int), c) := by
  have hgt : ¬ c > 0x7fffffff := by
    intro h
    simp [ord2utf8, h] at henc
  by_cases h0 : c ≤ 0x7f
  · have hidx : utf8_tbl_idx c = 0 := by rw [utf8_tbl_idx, if_pos h0]
    have henc2 : ord2utf8 c = some [0 ||| (c >>> 0)] := by
      simp only [ord2utf8, if_neg hgt, hidx]
      norm_num [utf8_table2]
    rw [henc] at henc2
    have hbs : bs = [0 ||| (c >>> 0)] := Option.some.inj henc2
    subst hbs
    simpa using rt_case0 c h0 rest
  by_cases h1 : c ≤ 0x7ff
  · have hidx : utf8_tbl_idx c = 1 := by rw [utf8_tbl_idx, if_neg h0, if_pos h1]
    have henc2 : ord2utf8 c = some [0xc0 ||| (c >>> 6), 0x80 ||| ((c >>> 0) &&& 0x3f)] := by
      simp only [ord2utf8, if_neg hgt, hidx]
      norm_num [utf8_table2, List.range_succ]
    rw [henc] at henc2
    have hbs : bs = [0xc0 ||| (c >>> 6), 0x80 ||| ((c >>> 0) &&& 0x3f)] := Option.some.inj henc2
    subst hbs
    simpa using rt_case1 c (by omega) h1 rest
  by_cases h2 : c ≤ 0xffff
  · have hidx : utf8_tbl_idx c = 2 := by
      rw [utf8_tbl_idx, if_neg h0, if_neg h1, if_pos h2]
    have henc2 : ord2utf8 c = some [0xe0 ||| (c >>> 12), 0x80 ||| ((c >>> 6) &&& 0x3f),
        0x80 ||| ((c >>> 0) &&& 0x3f)] := by
      simp only [ord2utf8, if_neg hgt, hidx]
      norm_num [utf8_table2, List.range_succ]
    rw [henc] at henc2
    have hbs : bs = [0xe0 ||| (c >>> 12), 0x80 ||| ((c >>> 6) &&& 0x3f),
        0x80 ||| ((c >>> 0) &&& 0x3f)] := Option.some.inj henc2
    subst hbs
    simpa using rt_case2 c (by omega) h2 rest
  by_cases h3 : c ≤ 0x1fffff
  · have hidx : utf8_tbl_idx c = 3 := by
      rw [utf8_tbl_idx, if_neg h0, if_neg h1, if_neg h2, if_pos h3]
    have henc2 : ord2utf8 c = some [0xf0 ||| (c >>> 18), 0x80 ||| ((c >>> 12) &&& 0x3f),
        0x80 ||| ((c >>> 6) &&& 0x3f), 0x80 ||| ((c >>> 0) &&& 0x3f)] := by
      simp only [ord2utf8, if_neg hgt, hidx]
      norm_num [utf8_table2, List.range_succ]
    rw [henc] at henc2
    have hbs : bs = [0xf0 ||| (c >>> 18), 0x80 ||| ((c >>> 12) &&& 0x3f),
        0x80 ||| ((c >>> 6) &&& 0x3f), 0x80 ||| ((c >>> 0) &&& 0x3f)] := Option.some.inj henc2
    subst hbs
    simpa using rt_case3 c (by omega) h3 rest
  by_cases h4 : c ≤ 0x3ffffff
  · have hidx : utf8_tbl_idx c = 4 := by
      rw [utf8_tbl_idx, if_neg h0, if_neg h1, if_neg h2, if_neg h3, if_pos h4]
    have henc2 : ord2utf8 c = some [0xf8 ||| (c >>> 24), 0x80 ||| ((c >>> 18) &&& 0x3f),
        0x80 ||| ((c >>> 12) &&& 0x3f), 0x80 ||| ((c >>> 6) &&& 0x3f),
        0x80 ||| ((c >>> 0) &&& 0x3f)] := by
      simp only [ord2utf8, if_neg hgt, hidx]
      norm_num [utf8_table2, List.range_succ]
    rw [henc] at henc2
    have hbs : bs = [0xf8 ||| (c >>> 24), 0x80 ||| ((c >>> 18) &&& 0x3f),
        0x80 ||| ((c >>> 12) &&& 0x3f), 0x80 ||| ((c >>> 6) &&& 0x3f),
        0x80 ||| ((c >>> 0) &&& 0x3f)] := Option.some.inj henc2
    subst hbs
    simpa using rt_case4 c (by omega) h4 rest
  · have h5 : c ≤ 0x7fffffff := by omega
    have hidx : utf8_tbl_idx c = 5 := by
      rw [utf8_tbl_idx, if_neg h0, if_neg h1, if_neg h2, if_neg h3, if_neg h4, if_pos h5]
    have henc2 : ord2utf8 c = some [0xfc ||| (c >>> 30), 0x80 ||| ((c >>> 24) &&& 0x3f),
        0x80 ||| ((c >>> 18) &&& 0x3f), 0x80 ||| ((c >>> 12) &&& 0x3f),
        0x80 ||| ((c >>> 6) &&& 0x3f), 0x80 ||| ((c >>> 0) &&& 0x3f)] := by
      simp only [ord2utf8, if_neg hgt, hidx]
      norm_num [utf8_table2, List.range_succ]
    rw [henc] at henc2
    have hbs : bs = [0xfc ||| (c >>> 30), 0x80 ||| ((c >>> 24) &&& 0x3f),
        0x80 ||| ((c >>> 18) &&& 0x3f), 0x80 ||| ((c >>> 12) &&& 0x3f),
        0x80 ||| ((c >>> 6) &&& 0x3f), 0x80 ||| ((c >>> 0) &&& 0x3f)] := Option.some.inj henc2
    subst hbs
    simpa using rt_case5 c (by omega) h5 rest


theorem to16_go_cons (utf : Bool) (F : Nat) (c : Nat) (bs bss : List Nat)
    (henc : ord2utf8 c = some bs) (hF : bs.length + bss.length ≤ F) :
    to16_go utf F (bs ++ bss) =
      if c > 0x10ffff then .error (-2)
      else if c < 0x10000 then (to16_go utf (F - 1) bss).map (fun l => c :: l)
      else if !utf then .error (-3)
      else (to16_go utf (F - 1) bss).map
        (fun l => (0xD800 ||| ((c - 0x10000) >>> 10)) ::
          (0xDC00 ||| ((c - 0x10000) &&& 0x3ff)) :: l) := by
  obtain ⟨b, bs1, rfl⟩ : ∃ b bs1, bs = b :: bs1 := by
    rw [ord2utf8] at henc
    by_cases hgt : c > 0x7fffffff
    · simp [hgt] at henc
    · simp only [if_neg hgt] at henc
      exact ⟨_, _, (Option.some.inj henc).symm⟩
  have hlen : (b :: bs1).length = bs1.length + 1 := rfl
  obtain ⟨f, rfl⟩ : ∃ f, F = f + 1 := by
    refine ⟨F - 1, by simp at hF; omega⟩
  have hrt := utf82ord_ord2utf8 c (b :: bs1) bss henc
  rw [List.cons_append] at hrt
  have hr1 : (utf82ord (b :: (bs1 ++ bss))).1 = ((bs1.length + 1 : Nat) : Int) := by
    rw [hrt, hlen]
  have hr2 : (utf82ord (b :: (bs1 ++ bss))).2 = c := by rw [hrt]
  rw [List.cons_append]
  rw [to16_go]
  rw [hr1, hr2]
  rw [if_neg (by omega : ¬ ((bs1.length + 1 : Nat) : Int) ≤ 0)]
  have htn : ((bs1.length + 1 : Nat) : Int).toNat = bs1.length + 1 := by omega
  rw [htn]
  have hdrop : (b :: (bs1 ++ bss)).drop (bs1.length + 1) = bss := by
    rw [List.drop_succ_cons, List.drop_left]
  rw [hdrop]
  simp only [Nat.add_sub_cancel]

theorem encodeAll_cons {c : Nat} {cs : List Nat} {bs : List Nat}
    (h : encodeAll (c :: cs) = some bs) :
    ∃ cbs csbs, ord2utf8 c = some cbs ∧ encodeAll cs = some csbs ∧ bs = cbs ++ csbs := by
  rw [encodeAll] at h
  cases hc : ord2utf8 c with
  | none => rw [hc] at h; simp at h
  | some cbs =>
    cases hcs : encodeAll cs with
    | none => rw [hc, hcs] at h; simp at h
    | some csbs =>
      rw [hc, hcs] at h
      exact ⟨cbs, csbs, rfl, rfl, (Option.some.inj h).symm⟩

/-- Conversion succeeds and is the identity whenever every codepoint fits
in one 16-bit unit, in either mode; surrogate values are not special. -/
theorem to16_stream_small : ∀ (cps : List Nat) (utf : Bool) (F : Nat) (bs : List Nat),
    (∀ c ∈ cps, c ≤ 0xffff) → encodeAll cps = some bs → bs.length ≤ F →
    to16_go utf F bs = .ok cps := by
  intro cps
  induction cps with
  | nil =>
    intro utf F bs _ henc _
    rw [encodeAll] at henc
    rw [← Option.some.inj henc]
    cases F <;> rfl
  | cons c cs ih =>
    intro utf F bs hall henc hF
    obtain ⟨cbs, csbs, hc, hcs, rfl⟩ := encodeAll_cons henc
    rw [List.length_append] at hF
    rw [to16_go_cons utf F c cbs csbs hc hF]
    have hc1 : c ≤ 0xffff := hall c (List.mem_cons_self c cs)
    rw [if_neg (by omega), if_pos (by omega)]
    rw [ih utf (F - 1) csbs (fun x hx => hall x (List.mem_cons_of_mem c hx)) hcs (by
      have : 1 ≤ cbs.length := by
        rw [ord2utf8] at hc
        by_cases hgt : c > 0x7fffffff
        · simp [hgt] at hc
        · simp only [if_neg hgt] at hc
          rw [← Option.some.inj hc]
          simp
      omega)]
    rfl

/-- Length of an encoder output is at least one. -/
theorem ord2utf8_len_pos {c : Nat} {bs : List Nat} (h : ord2utf8 c = some bs) :
    1 ≤ bs.length := by
  rw [ord2utf8] at h
  by_cases hgt : c > 0x7fffffff
  · simp [hgt] at h
  · simp only [if_neg hgt] at h
    rw [← Option.some.inj h]
    simp

/-- In UTF-16 mode every codepoint up to 0x10ffff converts, yielding the
single unit or the surrogate pair exactly as the C code computes it. -/
theorem to16_stream_utf : ∀ (cps : List Nat) (F : Nat) (bs : List Nat),
    (∀ c ∈ cps, c ≤ 0x10ffff) → encodeAll cps = some bs → bs.length ≤ F →
    to16_go true F bs = .ok (cps.flatMap utf16units) := by
  intro cps
  induction cps with
  | nil =>
    intro F bs _ henc _
    rw [encodeAll] at henc
    rw [← Option.some.inj henc]
    cases F <;> rfl
  | cons c cs ih =>
    intro F bs hall henc hF
    obtain ⟨cbs, csbs, hc, hcs, rfl⟩ := encodeAll_cons henc
    rw [List.length_append] at hF
    rw [to16_go_cons true F c cbs csbs hc hF]
    have hc1 : c ≤ 0x10ffff := hall c (List.mem_cons_self c cs)
    have hrec := ih (F - 1) csbs (fun x hx => hall x (List.mem_cons_of_mem c hx)) hcs (by
      have := ord2utf8_len_pos hc
      omega)
    rw [if_neg (by omega)]
    by_cases hsm : c < 0x10000
    · rw [if_pos hsm, hrec]
      simp [List.flatMap_cons, utf16units, hsm, Except.map]
    · rw [if_neg hsm]
      simp only [Bool.not_true, if_neg (by simp : ¬ (false : Bool) = true)]
      rw [hrec]
      simp [List.flatMap_cons, utf16units, hsm, Except.map]

/-- In UTF-16 mode any stream containing a codepoint above 0x10ffff is
rejected with error -2. -/
theorem to16_stream_err_utf : ∀ (cps : List Nat) (F : Nat) (bs : List Nat),
    (∀ c ∈ cps, c ≤ 0x7fffffff) → (∃ c ∈ cps, 0x10ffff < c) →
    encodeAll cps = some bs → bs.length ≤ F →
    to16_go true F bs = .error (-2) := by
  intro cps
  induction cps with
  | nil => intro F bs _ hex _ _; simp at hex
  | cons c cs ih =>
    intro F bs hall hex henc hF
    obtain ⟨cbs, csbs, hc, hcs, rfl⟩ := encodeAll_cons henc
    rw [List.length_append] at hF
    rw [to16_go_cons true F c cbs csbs hc hF]
    by_cases hbig : 0x10ffff < c
    · rw [if_pos (by omega)]
    · rw [if_neg (by omega)]
      have hex2 : ∃ x ∈ cs, 0x10ffff < x := by
        obtain ⟨x, hx, hxb⟩ := hex
        rcases List.mem_cons.mp hx with h1 | h2
        · omega
        · exact ⟨x, h2, hxb⟩
      have hrec := ih (F - 1) csbs (fun x hx => hall x (List.mem_cons_of_mem c hx)) hex2 hcs
        (by have := ord2utf8_len_pos hc; omega)
      by_cases hsm : c < 0x10000
      · rw [if_pos hsm, hrec]; rfl
      · rw [if_neg hsm]
        simp only [Bool.not_true, if_neg (by simp : ¬ (false : Bool) = true)]
        rw [hrec]; rfl

/-- In 16-bit non-UTF mode any stream containing a codepoint above 0xffff
is rejected, with error -2 (above 0x10ffff) or -3 (otherwise). -/
theorem to16_stream_err_raw : ∀ (cps : List Nat) (F : Nat) (bs : List Nat),
    (∀ c ∈ cps, c ≤ 0x7fffffff) → (∃ c ∈ cps, 0xffff < c) →
    encodeAll cps = some bs → bs.length ≤ F →
    to16_go false F bs = .error (-2) ∨ to16_go false F bs = .error (-3) := by
  intro cps
  induction cps with
  | nil => intro F bs _ hex _ _; simp at hex
  | cons c cs ih =>
    intro F bs hall hex henc hF
    obtain ⟨cbs, csbs, hc, hcs, rfl⟩ := encodeAll_cons henc
    rw [List.length_append] at hF
    rw [to16_go_cons false F c cbs csbs hc hF]
    by_cases hbig : 0x10ffff < c
    · left; rw [if_pos (by omega)]
    · by_cases hmid : 0xffff < c
      · right
        rw [if_neg (by omega), if_neg (by omega)]
        rfl
      · have hex2 : ∃ x ∈ cs, 0xffff < x := by
          obtain ⟨x, hx, hxb⟩ := hex
          rcases List.mem_cons.mp hx with h1 | h2
          · omega
          · exact ⟨x, h2, hxb⟩
        have hrec := ih (F - 1) csbs (fun x hx => hall x (List.mem_cons_of_mem c hx)) hex2 hcs
          (by have := ord2utf8_len_pos hc; omega)
        rw [if_neg (by omega), if_pos (by omega)]
        rcases hrec with h | h
        · left; rw [h]; rfl
        · right; rw [h]; rfl

/-- C2: for every codepoint in [0, 0x10FFFF] outside the surrogate range,
decoding the encoder's output round-trips: `utf82ord` yields the original
value and a positive return equal to the number of bytes written. -/
theorem C2_codec_roundtrip (c : Nat) (hle : c ≤ 0x10ffff)
    (_hsur : c < 0xD800 ∨ 0xDFFF < c) :
    ∃ bs, ord2utf8 c = some bs ∧ 0 < bs.length ∧
      utf82ord bs = ((bs.length : Int), c) := by
  cases henc : ord2utf8 c with
  | none =>
    rw [ord2utf8, if_neg (by omega)] at henc
    simp at henc
  | some bs =>
    refine ⟨bs, rfl, ord2utf8_len_pos henc, ?_⟩
    have h := utf82ord_ord2utf8 c bs [] henc
    rwa [List.append_nil] at h

theorem C2_codec_roundtrip_witness :
    ∃ bs, ord2utf8 0x10ffff = some bs ∧ 0 < bs.length ∧
      utf82ord bs = ((bs.length : Int), 0x10ffff) :=
  C2_codec_roundtrip 0x10ffff (by decide) (by decide)

/-- C8: the width converter to16 rejects codepoints above 0x10ffff in UTF
mode with error -2, rejects codepoints above 0xffff in non-UTF mode with
a distinguished error (-2 or -3), never rejects surrogate-range
codepoints (every stream of codepoints that each fit in one unit converts
to itself, surrogates included), and in UTF mode stores each codepoint
c ≥ 0x10000 as the surrogate pair
(0xD800 | ((c-0x10000) >> 10), 0xDC00 | ((c-0x10000) & 0x3ff)). -/
theorem C8_to16_policy :
    (∀ cps bs, (∀ c ∈ cps, c ≤ 0x7fffffff) → (∃ c ∈ cps, 0x10ffff < c) →
      encodeAll cps = some bs → to16 bs true = .error (-2))
    ∧ (∀ cps bs, (∀ c ∈ cps, c ≤ 0x7fffffff) → (∃ c ∈ cps, 0xffff < c) →
      encodeAll cps = some bs →
      to16 bs false = .error (-2) ∨ to16 bs false = .error (-3))
    ∧ (∀ cps bs utf, (∀ c ∈ cps, c ≤ 0xffff) → encodeAll cps = some bs →
      to16 bs utf = .ok cps)
    ∧ (∀ cps bs, (∀ c ∈ cps, c ≤ 0x10ffff) → encodeAll cps = some bs →
      to16 bs true = .ok (cps.flatMap utf16units))
    ∧ utf16units 0x10000 = [0xD800, 0xDC00] ∧ utf16units 0xffff = [0xffff] := by
  refine ⟨?_, ?_, ?_, ?_, by decide, by decide⟩
  · intro cps bs hall hex henc
    exact to16_stream_err_utf cps bs.length bs hall hex henc (Nat.le_refl _)
  · intro cps bs hall hex henc
    exact to16_stream_err_raw cps bs.length bs hall hex henc (Nat.le_refl _)
  · intro cps bs utf hall henc
    exact to16_stream_small cps utf bs.length bs hall henc (Nat.le_refl _)
  · intro cps bs hall henc
    exact to16_stream_utf cps bs.length bs hall henc (Nat.le_refl _)

theorem C8_to16_policy_witness :
    to16 [0xf4, 0x90, 0x80, 0x80] true = .error (-2)
    ∧ (to16 [0xf0, 0x90, 0x80, 0x80] false = .error (-2) ∨
       to16 [0xf0, 0x90, 0x80, 0x80] false = .error (-3))
    ∧ to16 [0xed, 0xa0, 0x80] false = .ok [0xD800]
    ∧ to16 [0xf0, 0x90, 0x80, 0x80] true = .ok [0xD800, 0xDC00] := by
  refine ⟨?_, ?_, ?_, ?_⟩
  · exact C8_to16_policy.1 [0x110000] [0xf4, 0x90, 0x80, 0x80] (by decide)
      ⟨0x110000, by decide⟩ (by decide)
  · exact C8_to16_policy.2.1 [0x10000] [0xf0, 0x90, 0x80, 0x80] (by decide)
      ⟨0x10000, by decide⟩ (by decide)
  · have h := C8_to16_policy.2.2.1 [0xD800] [0xed, 0xa0, 0x80] false (by decide) (by decide)
    exact h
  · have h := C8_to16_policy.2.2.2.1 [0x10000] [0xf0, 0x90, 0x80, 0x80] (by decide) (by decide)
    simpa [utf16units] using h

example : processData [97, 98, 99] false =
    .ok { buf := [97, 98, 99], vals := [97, 98, 99], warns := [], cap := 32768,
          staleRead := false, pastCap := false } := rfl

example : processData [65, 92, 91, 66, 67, 93, 123, 51, 125, 68] false =
    .ok { buf := [65, 66, 67, 66, 67, 66, 67, 68], vals := [65, 66, 67, 68], warns := [],
          cap := 32768, staleRead := false, pastCap := false } := rfl

example : processData [65, 92, 91, 66, 67, 92, 93, 123, 51, 125, 68] false =
    .error (.unrecognizedEscape 93) := rfl

example : processData [92, 91, 65, 66, 93, 123, 48, 125] false = .error .zeroRepeat := rfl

example : processData [92, 120, 123, 48, 49, 50, 51, 52, 53, 54, 55, 56, 57, 125] false =
    .ok { buf := [0x79], vals := [0x12345679], warns := [.tooManyHex, .over255],
          cap := 32768, staleRead := false, pastCap := false } := rfl

example : processData [65, 128] true = .error .invalidUtf8Line := rfl

example : processData [92, 120, 52, 49, 92, 49, 48, 49, 92, 111, 123, 49, 48, 49, 125, 92, 110] false =
    .ok { buf := [65, 65, 65, 10], vals := [65, 65, 65, 10], warns := [], cap := 32768,
          staleRead := false, pastCap := false } := rfl

example : processData [92, 120, 123, 51, 48, 48, 125, 97] true =
    .ok { buf := [0xcc, 0x80, 97], vals := [0x300, 97], warns := [], cap := 32768,
          staleRead := false, pastCap := false } := rfl





example : encStale (processData dupGrowLine false) = true := rfl





example : decode_modifiers (s2b "-x") CTX_PAT (mstOf patctlX) =
    (true, mstOf patctlX) := rfl
example : decode_modifiers (s2b "x") CTX_PAT (mstOf patctlX) =
    (true, mstOf patctlX) := rfl
example : decode_modifiers (s2b "-extended") CTX_PAT (mstOf patctlX) =
    (true, mstOf { patctlX with options := 0 }) := rfl
example : decode_modifiers (s2b "extended") CTX_PAT (mstOf { patctlX with options := 0 }) =
    (true, mstOf patctlX) := rfl
example : decode_modifiers (s2b "i") CTX_PAT (mstOf { patctlX with options := 0 }) =
    (true, mstOf { patctlX with options := PCRE2_CASELESS }) := rfl
example : decode_modifiers (s2b "gg") CTX_PAT (mstOf { patctlX with options := 0 }) =
    (true, mstOf { patctlX with options := 0, control := CTL_ALTGLOBAL }) := rfl
example : decode_modifiers (s2b "caseless,ucp") CTX_PAT (mstOf { patctlX with options := 0 }) =
    (true, mstOf { patctlX with options := PCRE2_CASELESS ||| PCRE2_UCP }) := rfl
example : decode_modifiers (s2b "caseless,bogus") CTX_PAT (mstOf patctlX) =
    (false, mstOf { patctlX with options := PCRE2_EXTENDED ||| PCRE2_CASELESS }) := rfl









example : globRun emptyAllMatcher cfg8g [65, 66] 6 2 2 0 =
    { reports := [(0, 0), (1, 1), (2, 2)],
      trace := [(0, 2, 2, 0), (0, 2, 2, 0), (0, 2, 2, 1), (0, 2, 2, 1), (0, 2, 2, 2)],
      ending := .endOfSubject } := rfl

example : (globRun emptyAllMatcher cfg8gCrlf [13, 10] 6 2 2 0).reports =
    [(0, 0), (2, 2)] := rfl

example : (globRun onceMatcher cfg16G [65, 66, 67] 6 6 3 0).trace =
    [(0, 6, 3, 0), (1, 5, 1, 0)] := rfl

/-- Prepending position k to the spans for positions k+1..k+1+d gives
the spans for positions k..k+d+1. -/
theorem cons_range_spans (d k : Nat) :
    (k, k) :: (List.range (d + 1)).map (fun t => (k + 1 + t, k + 1 + t)) =
    (List.range (d + 1 + 1)).map (fun t => (k + t, k + t)) := by
  conv_rhs => rw [show d + 1 + 1 = (d + 1) + 1 from rfl, List.range_succ_eq_map]
  rw [List.map_cons, List.map_map]
  refine List.cons_eq_cons.mpr ⟨by simp, ?_⟩
  apply List.map_congr_left
  intro t _
  simp only [Function.comp_apply, Prod.mk.injEq]
  omega
/-- Behaviour of one /g step pair from offset k with the empty-everywhere
matcher, no CRLF coalescing, no UTF skipping. -/
theorem emptyAll_glob_loop (cfg : GlobCfg) (subj : List Nat)
    (hg : cfg.globalg = true) (hu : cfg.utf = false)
    (hnl : cfg.nl ≠ PCRE2_NEWLINE_CRLF ∧ cfg.nl ≠ PCRE2_NEWLINE_ANY ∧
      cfg.nl ≠ PCRE2_NEWLINE_ANYCRLF) :
    ∀ d k fuel len reports trace, 2 * d + 1 ≤ fuel →
    (globLoop emptyAllMatcher cfg subj fuel 0 len (k + d) k false reports trace).reports =
      reports ++ (List.range (d + 1)).map (fun t => (k + t, k + t)) ∧
    (globLoop emptyAllMatcher cfg subj fuel 0 len (k + d) k false reports trace).ending =
      .endOfSubject := by
  intro d
  induction d with
  | zero =>
    intro k fuel len reports trace hfuel
    obtain ⟨f, rfl⟩ : ∃ f, fuel = f + 1 := ⟨fuel - 1, by omega⟩
    rw [globLoop]
    simp [emptyAllMatcher, hg, show List.range 1 = [0] from rfl]
  | succ d ih =>
    intro k fuel len reports trace hfuel
    obtain ⟨f, rfl⟩ : ∃ f, fuel = f + 1 := ⟨fuel - 1, by omega⟩
    obtain ⟨f2, rfl⟩ : ∃ f2, f = f2 + 1 := ⟨f - 1, by omega⟩
    have hne1 : ¬ (k = k + (d + 1)) := by omega
    have hnl2 : (decide (cfg.nl = PCRE2_NEWLINE_CRLF) || decide (cfg.nl = PCRE2_NEWLINE_ANY)
        || decide (cfg.nl = PCRE2_NEWLINE_ANYCRLF)) = false := by
      simp [hnl.1, hnl.2.1, hnl.2.2]
    rw [globLoop]
    simp only [emptyAllMatcher, hg, hu, hne1, hnl2, Bool.false_and, Bool.true_or,
      Bool.or_true, Bool.not_true, decide_eq_true_eq, if_false, Bool.false_eq_true,
      Bool.and_self, ite_false, ite_true, and_false,
      false_and]
    rw [globLoop]
    simp only [emptyAllMatcher, hg, hu, hne1, hnl2, Bool.false_and, Bool.true_or,
      Bool.or_true, Bool.not_true, decide_eq_true_eq, if_false, Bool.false_eq_true,
      Bool.and_self, ite_false, ite_true, and_false,
      false_and, Bool.false_or]
    simp only [show (decide True && decide False) = false from rfl,
      show (decide ((1 : Nat) = 0)) = false from rfl, Bool.false_and,
      Bool.false_eq_true, if_false]
    rw [show k + (d + 1) = k + 1 + d from by omega]
    have hdk : (decide (k = k + 1)) = false := decide_eq_false (by omega)
    simp only [hdk, Bool.false_and, Bool.false_eq_true, if_false]
    refine ⟨?_, ?_⟩
    · rw [(ih (k + 1) f2 len (reports ++ [(k, k)]) _ (by omega)).1]
      rw [List.append_assoc]
      congr 1
      rw [List.singleton_append, cons_range_spans]
    · exact (ih (k + 1) f2 len (reports ++ [(k, k)]) _ (by omega)).2


/-- C1 (amended): for a global (/g) configuration that is not in UTF
mode and whose newline convention is none of CRLF, ANY, ANYCRLF, a
matcher that matches empty at every position produces exactly N+1
empty-match reports, one per position 0..N, and the loop terminates at
the end of the subject. -/
theorem C1_empty_global_matches (cfg : GlobCfg) (subj : List Nat) (N len fuel : Nat)
    (hg : cfg.globalg = true) (hu : cfg.utf = false)
    (hnl : cfg.nl ≠ PCRE2_NEWLINE_CRLF ∧ cfg.nl ≠ PCRE2_NEWLINE_ANY ∧
      cfg.nl ≠ PCRE2_NEWLINE_ANYCRLF)
    (hfuel : 2 * N + 1 ≤ fuel) :
    (globRun emptyAllMatcher cfg subj fuel len N 0).reports =
      (List.range (N + 1)).map (fun k => (k, k)) ∧
    (globRun emptyAllMatcher cfg subj fuel len N 0).ending = .endOfSubject := by
  have h := emptyAll_glob_loop cfg subj hg hu hnl N 0 fuel len [] [] hfuel
  simpa [globRun] using h

theorem C1_empty_global_matches_witness :
    (globRun emptyAllMatcher cfg8g [65, 66] 6 2 2 0).reports =
      [(0, 0), (1, 1), (2, 2)] ∧
    (globRun emptyAllMatcher cfg8g [65, 66] 6 2 2 0).ending = .endOfSubject := by
  have h := C1_empty_global_matches cfg8g [65, 66] 2 2 6 rfl rfl (by decide) (by omega)
  refine ⟨?_, h.2⟩
  rw [h.1]
  rfl

/-- C1 counterexample: under the CRLF newline convention the subject
CR LF of length 2 yields only the 2 reports (0,0) and (2,2) — not the
claimed N+1 = 3 — because the empty-match retry after position 0 skips
over the whole CRLF pair. -/
theorem C1_crlf_counterexample :
    (globRun emptyAllMatcher cfg8gCrlf [13, 10] 6 2 2 0).reports = [(0, 0), (2, 2)] ∧
    ((globRun emptyAllMatcher cfg8gCrlf [13, 10] 6 2 2 0).reports).length ≠ 2 + 1 :=
  ⟨rfl, by decide⟩

/-- C6: in 16-bit mode under /G (altglobal), after a first match ending
at code unit 1 over a 3-unit subject (len = 6 bytes, ulen = 3 units) the
next iteration runs with len = 5 and ulen = 1: the driver subtracts the
unit count from the byte length and the byte count from the unit length,
instead of len = 4 and ulen = 2.  The trace records
(offset, len, ulen, start) per iteration. -/
theorem C6_altglobal_view_update :
    (globRun onceMatcher cfg16G [65, 66, 67] 6 6 3 0).reports = [(0, 1)] ∧
    (globRun onceMatcher cfg16G [65, 66, 67] 6 6 3 0).trace =
      [(0, 6, 3, 0), (1, 5, 1, 0)] :=
  ⟨rfl, rfl⟩

/-- The allocation id never decreases across the doubling loop. -/
theorem growWhile_le_allocId : ∀ (f needlen cap aid : Nat),
    aid ≤ (growWhile needlen f cap aid).2 := by
  intro f
  induction f with
  | zero => intro needlen cap aid; exact Nat.le_refl _
  | succ f ih =>
    intro needlen cap aid
    rw [growWhile]
    by_cases h : cap ≤ needlen
    · rw [if_pos h]
      have := ih needlen (cap * 2) (aid + 1)
      omega
    · rw [if_neg h]

/-- If the loop has to grow at all, the allocation moves: the resulting
allocation id is strictly larger. -/
theorem growWhile_bumps (f needlen cap aid : Nat) (hc : cap ≤ needlen) (hf : 1 ≤ f) :
    aid < (growWhile needlen f cap aid).2 := by
  obtain ⟨f2, rfl⟩ : ∃ f2, f = f2 + 1 := ⟨f - 1, by omega⟩
  rw [growWhile, if_pos hc]
  have := growWhile_le_allocId f2 needlen (cap * 2) (aid + 1)
  omega

/-- Writing bytes never changes the use-after-free flag. -/
theorem encWriteAll_staleRead (st : EncSt) (bs : List Nat) :
    (encWriteAll st bs).staleRead = st.staleRead := rfl

/-- Replaying once through a pointer into a no-longer-current allocation
raises the use-after-free flag. -/
theorem dupCopyOnce_stale_set (st : EncSt) (aid off duplen : Nat)
    (h : ¬ st.allocId = aid) :
    (dupCopyOnce st aid off duplen).staleRead = true := by
  rw [dupCopyOnce, if_neg h, encWriteAll_staleRead]

/-- Replaying once keeps the use-after-free flag raised. -/
theorem dupCopyOnce_stale_keep (st : EncSt) (aid off duplen : Nat)
    (h : st.staleRead = true) :
    (dupCopyOnce st aid off duplen).staleRead = true := by
  rw [dupCopyOnce]
  by_cases h2 : st.allocId = aid
  · rw [if_pos h2, encWriteAll_staleRead]; exact h
  · rw [if_neg h2, encWriteAll_staleRead]

/-- The replay loop keeps the use-after-free flag raised. -/
theorem dupCopyLoop_stale_keep (aid off duplen : Nat) :
    ∀ (i : Nat) (st : EncSt), st.staleRead = true →
    (dupCopyLoop aid off duplen i st).staleRead = true := by
  intro i
  induction i with
  | zero => intro st h; exact h
  | succ i ih =>
    intro st h
    rw [dupCopyLoop]
    exact ih _ (dupCopyOnce_stale_keep st aid off duplen h)

/-- C4: the duplication close grows the buffer without re-basing the
saved duplication-start pointer, so when growth happens (for a repeat
count of at least 2, so that at least one replay follows) the replays
read through a pointer into the freed allocation: the result carries the
use-after-free flag, and the replayed bytes are not read from the live
buffer. -/
theorem C4_dup_close_stale (line : List Nat) (fuel pos : Nat) (st : EncSt) (aid off : Nat)
    (haid : aid = st.allocId)
    (hl : line.getD pos 0 = 123)
    (hN : 2 ≤ (scanRepeatDigits line fuel (pos + 1) 0).1)
    (hr : line.getD (scanRepeatDigits line fuel (pos + 1) 0).2 0 = 125)
    (hgrow : st.cap ≤ st.needlen +
      (st.qoff - off) * ((scanRepeatDigits line fuel (pos + 1) 0).1 - 2)) :
    ∃ pos2 st2, closeDup line fuel pos st aid off = .ok (pos2, st2) ∧
      st2.staleRead = true := by
  rw [closeDup]
  rw [if_neg (by rw [hl]; omega)]
  rw [if_neg (by rw [hr]; omega)]
  rw [if_neg (by omega)]
  set r := scanRepeatDigits line fuel (pos + 1) 0 with hrdef
  refine ⟨r.2 + 1, _, rfl, ?_⟩
  simp only []
  rw [if_neg (by omega : ¬ (r.1 - 1 = 0))]
  obtain ⟨i2, hi2⟩ : ∃ i2, r.1 - 1 = i2 + 1 := ⟨r.1 - 2, by omega⟩
  rw [hi2]
  simp only [Nat.add_sub_cancel]
  have hg2 : st.cap ≤ st.needlen + (st.qoff - off) * i2 := by
    have h2 : r.1 - 2 = i2 := by omega
    rw [← h2]; exact hgrow
  have hbump := growWhile_bumps
    (st.needlen + (st.qoff - off) * i2 + 1)
    (st.needlen + (st.qoff - off) * i2) st.cap st.allocId hg2 (by omega)
  rw [dupCopyLoop]
  apply dupCopyLoop_stale_keep
  apply dupCopyOnce_stale_set
  simp only []
  omega



theorem C4_dup_close_stale_witness :
    ∃ pos2 st2, closeDup [123, 51, 125] 10 0 encStClose 0 0 = .ok (pos2, st2) ∧
      st2.staleRead = true :=
  C4_dup_close_stale [123, 51, 125] 10 0 encStClose 0 0 rfl rfl (by decide)
    (by decide) (by decide)

/-- C3 counterexample: in the data line claimed by the spec the closing
mark is written as the escape backslash-], but the escape switch has no
case for ] and rejects it as an unrecognized escape. -/
theorem C3_escaped_close_counterexample :
    processData [65, 92, 91, 66, 67, 92, 93, 123, 51, 125, 68] false =
      .error (.unrecognizedEscape 93) := rfl

/-- C3 (amended): the duplication block is closed by a bare unescaped ]:
the 8-bit encoder decodes the data line backslash-[ BC ]{3} (i.e.
A\[BC]{3}D with an unescaped close) to the subject ABCBCBCD, and a
nested duplication (a second backslash-[ while one is open) is
rejected. -/
theorem C3_dup_block :
    processData [65, 92, 91, 66, 67, 93, 123, 51, 125, 68] false =
      .ok { buf := [65, 66, 67, 66, 67, 66, 67, 68], vals := [65, 66, 67, 68], warns := [],
            cap := 32768, staleRead := false, pastCap := false }
    ∧ processData [92, 91, 65, 92, 91, 66, 93, 123, 50, 125, 93, 123, 50, 125] false =
        .error .nestedDup := ⟨rfl, rfl⟩

/-- C7: on the data line backslash-x{0123456789} the encoder keeps the
warning about more than eight hex digits, but the committed value is
0x12345679, not the value 0x01234567 of the first eight digits: only the
ninth digit is dropped and every later digit still accumulates. -/
theorem C7_hex_brace_digits :
    processData [92, 120, 123, 48, 49, 50, 51, 52, 53, 54, 55, 56, 57, 125] false =
      .ok { buf := [0x79], vals := [0x12345679], warns := [.tooManyHex, .over255],
            cap := 32768, staleRead := false, pastCap := false }
    ∧ (0x12345679 : Nat) ≠ 0x01234567
    ∧ processData [92, 120, 123, 52, 49, 66] false =
      .ok { buf := [0, 123, 52, 49, 66], vals := [0, 123, 52, 49, 66], warns := [],
            cap := 32768, staleRead := false, pastCap := false } :=
  ⟨rfl, by decide, rfl⟩

/-- A byte in the continuation range 0x80..0xbf has add-count 0. -/
theorem addcount_cont : ∀ c, c < 192 → 128 ≤ c → utf8_addcount c = 0 := by decide

/-- C10: a duplication block whose repeat count is zero is rejected with
the zero-repeat diagnostic: whatever the scanner state when the close
is reached, a repeat count of 0 inside the braces yields the error, and
a full data line carrying such a block produces no subject buffer. -/
theorem C10_zero_repeat :
    (∀ (line : List Nat) (fuel pos : Nat) (st : EncSt) (aid off : Nat),
      line.getD pos 0 = 123 →
      (scanRepeatDigits line fuel (pos + 1) 0).1 = 0 →
      line.getD (scanRepeatDigits line fuel (pos + 1) 0).2 0 = 125 →
      closeDup line fuel pos st aid off = .error .zeroRepeat)
    ∧ processData [92, 91, 65, 66, 93, 123, 48, 125] false = .error .zeroRepeat := by
  refine ⟨?_, rfl⟩
  intro line fuel pos st aid off hl h0 hr
  rw [closeDup]
  rw [if_neg (by rw [hl]; omega)]
  rw [if_neg (by rw [hr]; omega)]
  rw [if_pos h0]

theorem C10_zero_repeat_witness :
    closeDup [123, 48, 125] 5 0 encStClose 0 0 = .error .zeroRepeat :=
  C10_zero_repeat.1 [123, 48, 125] 5 0 encStClose 0 0 rfl (by decide) (by decide)

/-- C9: with UTF mode active the raw line is validated as UTF-8 before
any escape decoding: an invalid line yields the validation error and no
output at all (first conjunct, for every line); a line beginning with an
isolated continuation byte is invalid (second conjunct); the line A
followed by byte 0x80 is rejected, and the validation error wins even
when the line also contains an invalid escape (last conjuncts). -/
theorem C9_utf_precheck :
    (∀ line : List Nat, utf8CheckLine line = false →
      processData line true = .error .invalidUtf8Line)
    ∧ (∀ (c : Nat) (rest : List Nat), 128 ≤ c → c ≤ 191 →
      utf8CheckLine (c :: rest) = false)
    ∧ processData [65, 128] true = .error .invalidUtf8Line
    ∧ processData [92, 113, 128] true = .error .invalidUtf8Line := by
  refine ⟨?_, ?_, rfl, rfl⟩
  · intro line h
    rw [processData, h]
    rfl
  · intro c rest h1 h2
    have hadd : utf8_addcount c = 0 := addcount_cont c (by omega) h1
    have hord : utf82ord (c :: rest) = (0, 0) := by
      rw [utf82ord]
      simp only [List.getD_cons_zero, hadd]
      norm_num
    rw [utf8CheckLine, List.length_cons, utf8Check_go]
    rw [if_neg (by omega : ¬ c = 0), hord]
    norm_num

theorem C9_utf_precheck_witness :
    processData [130] true = .error .invalidUtf8Line ∧ utf8CheckLine [130] = false :=
  ⟨C9_utf_precheck.1 [130] (by decide), C9_utf_precheck.2.1 130 [] (by decide) (by decide)⟩

/-- C5 counterexample: decoding the modifier string -x over a pattern
record whose extended flag is set leaves the flag set: the single-letter
abbreviation path never honours the - prefix. -/
theorem C5_minus_x_counterexample :
    ∃ p, (decode_modifiers (s2b "-x") CTX_PAT (mstOf patctlX)).2.pctl = some p
      ∧ p.options &&& PCRE2_EXTENDED = PCRE2_EXTENDED :=
  ⟨patctlX, rfl, by decide⟩

/-- C5 (amended): the full name -extended clears the flag and extended
sets it, while both of the single-letter forms x and -x set it: the
abbreviation path ors the bits in unconditionally, ignoring a leading
minus. -/
theorem C5_modifier_overlay :
    (decode_modifiers (s2b "-extended") CTX_PAT (mstOf patctlX)).2 =
      mstOf { patctlX with options := 0 }
    ∧ (decode_modifiers (s2b "extended") CTX_PAT (mstOf { patctlX with options := 0 })).2 =
      mstOf patctlX
    ∧ (decode_modifiers (s2b "x") CTX_PAT (mstOf { patctlX with options := 0 })).2 =
      mstOf patctlX
    ∧ (decode_modifiers (s2b "-x") CTX_PAT (mstOf { patctlX with options := 0 })).2 =
      mstOf patctlX := ⟨rfl, rfl, rfl, rfl⟩
